import Mathlib

/-!
Verification of the slack-message-to-issue relay against its specification.

The TypeScript sources are shallowly embedded: every function below mirrors the
control flow of the corresponding source function; network calls, the crypto
HMAC primitive and JSON parsing of inbound payloads are oracle parameters
(fields of an `Env` structure), while everything the repository itself computes
(string building, gating logic, degrade policy, JSON serialization of the modal
metadata) is modelled executably.
-/

namespace JsModel

/-- Kernel-computable emptiness test (`s.data.isEmpty`). -/
def strIsEmpty (s : String) : Bool := s.data.isEmpty

/-- Model of JS `String.prototype.startsWith`, over the character lists. -/
def jsStartsWith (s pre : String) : Bool := pre.data.isPrefixOf s.data

/-- Model of JS `String.prototype.endsWith`. -/
def jsEndsWith (s suf : String) : Bool := suf.data.isSuffixOf s.data

/-- Model of JS `String.prototype.toLowerCase` for the ASCII range it is
applied to here. -/
def jsToLower (s : String) : String := ⟨s.data.map Char.toLower⟩

/-- First `n` characters (`substring(0, n)` / template truncation). -/
def strTake (s : String) (n : Nat) : String := ⟨s.data.take n⟩

def splitOnCharAux (sep : Char) : List Char → List Char → List String
  | [], acc => [⟨acc.reverse⟩]
  | c :: rest, acc =>
    if c = sep then ⟨acc.reverse⟩ :: splitOnCharAux sep rest []
    else splitOnCharAux sep rest (c :: acc)

/-- Model of JS `String.prototype.split` with a one-character separator
(the only form this program uses). -/
def splitOnChar (sep : Char) (s : String) : List String := splitOnCharAux sep s.data []

/-- Model of `Array.prototype.join(sep)`. -/
def joinSep (sep : String) : List String → String
  | [] => ""
  | [x] => x
  | x :: xs => x ++ sep ++ joinSep sep xs

/-- Model of JavaScript truthiness for an optional string value:
`undefined`/`null` and the empty string are falsy. -/
def jsTruthyStr : Option String → Bool
  | none => false
  | some s => !strIsEmpty s

/-- Model of JavaScript truthiness for an optional numeric value:
`undefined` and `0` are falsy. -/
def jsTruthyNat : Option Nat → Bool
  | none => false
  | some n => n != 0

/-- `a || b || dflt` on optional strings under JS truthiness. -/
def jsOrStr (a b : Option String) (dflt : String) : String :=
  if jsTruthyStr a then a.getD dflt
  else if jsTruthyStr b then b.getD dflt
  else dflt

def digitsVal (l : List Char) : Nat :=
  l.foldl (fun acc c => acc * 10 + (c.toNat - 48)) 0

/-- JS whitespace (ECMA-262 WhiteSpace and LineTerminator), the set trimmed
both by `String.prototype.trim` and by `StringToNumber`: tab, LF, VT, FF, CR,
space, NBSP, LS, PS and ZWNBSP.  (The remaining Unicode Space_Separator code
points do not occur in the strings this program handles.) -/
def isJsWs (c : Char) : Bool :=
  c = ' ' || c = '\n' || c = '\t' || c = '\r'
    || c = Char.ofNat 11 || c = Char.ofNat 12 || c = Char.ofNat 160
    || c = Char.ofNat 8232 || c = Char.ofNat 8233 || c = Char.ofNat 65279

def trimList (l : List Char) : List Char :=
  ((l.dropWhile isJsWs).reverse.dropWhile isJsWs).reverse

/-- Model of JavaScript `String.prototype.trim`. -/
def jsTrim (s : String) : String := ⟨trimList s.data⟩

/-- Result of JS `Number(...)` applied to a string: NaN, a signed infinity,
or a finite value.  A finite value is kept as the exact unreduced fraction
`num / den` of the parsed literal, `den` being the power of ten contributed
by the fraction digits and a negative exponent (`den > 0` by construction).
Rounding of the literal to an IEEE-754 double is not modelled: the one
comparison this program performs, `Math.abs(now - t) > 300`, is decided on
the exact parsed values. -/
inductive JsNum where
  | nan
  | posInf
  | negInf
  | finite (num : Int) (den : Nat)
deriving DecidableEq

/-- Leading decimal-digit prefix of a character list, and the rest. -/
def takeDigits : List Char → List Char × List Char
  | [] => ([], [])
  | c :: cs =>
    if c.isDigit then
      let p := takeDigits cs
      (c :: p.1, p.2)
    else ([], c :: cs)

/-- The exponent tail of a decimal literal: an empty tail is exponent `0`,
`(e|E)(+|-)?digits` is its signed value, anything else fails the parse. -/
def parseExpPart : List Char → Option Int
  | [] => some 0
  | c :: cs =>
    if c = 'e' ∨ c = 'E' then
      match cs with
      | '+' :: ds =>
        if ds ≠ [] ∧ ds.all Char.isDigit then some (digitsVal ds : Int) else none
      | '-' :: ds =>
        if ds ≠ [] ∧ ds.all Char.isDigit then some (-(digitsVal ds : Int)) else none
      | ds =>
        if ds ≠ [] ∧ ds.all Char.isDigit then some (digitsVal ds : Int) else none
    else none

/-- Value of a decimal literal with integer digits `ip`, fraction digits `fp`
and exponent `e`, as an unreduced fraction. -/
def decPair (ip fp : List Char) (e : Int) : Int × Nat :=
  let m : Nat := digitsVal (ip ++ fp)
  let shift : Int := e - (fp.length : Int)
  if 0 ≤ shift then ((m : Int) * ((10 : Int) ^ shift.toNat), 1)
  else ((m : Int), 10 ^ (-shift).toNat)

/-- `StrUnsignedDecimalLiteral`: `digits [. digits] [exponent]` or
`. digits [exponent]`, consuming the whole list. -/
def parseDec (l : List Char) : Option (Int × Nat) :=
  let p := takeDigits l
  match p.2 with
  | '.' :: r2 =>
    let q := takeDigits r2
    if p.1 = [] ∧ q.1 = [] then none
    else
      match parseExpPart q.2 with
      | some e => some (decPair p.1 q.1 e)
      | none => none
  | _ =>
    if p.1 = [] then none
    else
      match parseExpPart p.2 with
      | some e => some (decPair p.1 [] e)
      | none => none

/-- A hexadecimal digit's value (also covers octal and binary digits). -/
def hexDigitVal (c : Char) : Option Nat :=
  if '0' ≤ c ∧ c ≤ '9' then some (c.toNat - 48)
  else if 'a' ≤ c ∧ c ≤ 'f' then some (c.toNat - 87)
  else if 'A' ≤ c ∧ c ≤ 'F' then some (c.toNat - 55)
  else none

def radixValAux (b : Nat) : List Char → Nat → Option Nat
  | [], acc => some acc
  | c :: cs, acc =>
    match hexDigitVal c with
    | some d => if d < b then radixValAux b cs (acc * b + d) else none
    | none => none

/-- Digits of radix `b`; fails on an empty list or an out-of-range digit. -/
def radixVal (b : Nat) (l : List Char) : Option Nat :=
  if l = [] then none else radixValAux b l 0

/-- Model of JavaScript `Number(s)` on strings (ECMA-262 `StringToNumber`):
whitespace is trimmed, the empty string is `0`, `Infinity` with an optional
sign, optionally signed decimal literals (integer, float and exponent forms)
and unsigned `0x`/`0o`/`0b` radix literals parse to their value, and every
other string is NaN. -/
def jsNumber (s : String) : JsNum :=
  match trimList s.data with
  | [] => .finite 0 1
  | l =>
    let sb : Bool × List Char :=
      match l with
      | '+' :: r => (false, r)
      | '-' :: r => (true, r)
      | r => (false, r)
    if sb.2 = "Infinity".data then (if sb.1 then .negInf else .posInf)
    else
      match (match l with
             | '0' :: c :: rest =>
               if c = 'x' ∨ c = 'X' then some (radixVal 16 rest)
               else if c = 'o' ∨ c = 'O' then some (radixVal 8 rest)
               else if c = 'b' ∨ c = 'B' then some (radixVal 2 rest)
               else none
             | _ => none) with
      | some (some v) => .finite (v : Int) 1
      | some none => .nan
      | none =>
        match parseDec sb.2 with
        | some p => .finite (if sb.1 then -p.1 else p.1) p.2
        | none => .nan

/-- UTF-16 code units one character occupies (astral characters count twice). -/
def utf16Width (c : Char) : Nat := if c.toNat ≥ 65536 then 2 else 1

/-- JS `String.prototype.length` counts UTF-16 code units. -/
def jsLength (s : String) : Nat := (s.data.map utf16Width).sum

/-- JS `s.replace(pat, rep)` with a one-character string pattern: only the
first occurrence is replaced. -/
def jsReplaceFirst (s : String) (pat : Char) (rep : String) : String :=
  match splitOnChar pat s with
  | [] => s
  | [x] => x
  | x :: xs => x ++ rep ++ joinSep (String.singleton pat) xs

/-- Substring containment, the observable used for "the comment contains ...". -/
def strContains (hay needle : String) : Prop := needle.data <:+: hay.data

instance (hay needle : String) : Decidable (strContains hay needle) := by
  unfold strContains; infer_instance

end JsModel

namespace Slack

open JsModel

/-- Shallow embedding of `src/src/lib/slack/verify.ts` `verifySlackRequest`.
The two headers are `x-slack-request-timestamp` and `x-slack-signature`
(`none` = header absent).  `hmacHex secret msg` is the oracle for
`crypto.createHmac("sha256", secret).update(msg).digest("hex")`; `now` is
`Math.floor(Date.now()/1000)`.  The final length check plus
`crypto.timingSafeEqual` on the UTF-8 buffers decides exactly string equality
of `expected` and the signature header. -/
def verifySlackRequest (hmacHex : String → String → String) (secret : String)
    (now : Int) (ts? sig? : Option String) (rawBody : String) : Bool :=
  match ts?, sig? with
  | some ts, some sig =>
    if strIsEmpty ts || strIsEmpty sig then false
    else
      -- `Math.abs(now - Number(ts)) > 60 * 5`: when `Number(ts)` is NaN the
      -- comparison is false, so a non-numeric timestamp is NOT rejected here;
      -- an infinite value compares greater; a finite `n / d` is stale exactly
      -- when `|now * d - n| > 300 * d` (`d > 0`).
      let stale : Bool :=
        match jsNumber ts with
        | .nan => false
        | .posInf => true
        | .negInf => true
        | .finite n d => decide ((now * (d : Int) - n).natAbs > 300 * d)
      if stale then false
      else
        let base := "v0:" ++ ts ++ ":" ++ rawBody
        let expected := "v0=" ++ hmacHex secret base
        expected == sig
  | _, _ => false

/-- Modelled from the spec: the acceptance condition the spec states for the
verifier — both headers present, HMAC recomputation matches, and the timestamp
parses to a number within 300 seconds of `now`.  Used to compare the code's
behaviour with the spec's words. -/
def specVerifyOk (hmacHex : String → String → String) (secret : String)
    (now : Int) (ts? sig? : Option String) (rawBody : String) : Bool :=
  match ts?, sig? with
  | some ts, some sig =>
    !strIsEmpty ts && !strIsEmpty sig &&
    (match jsNumber ts with
     | .finite n d => decide ((now * (d : Int) - n).natAbs ≤ 300 * d)
     | _ => false) &&
    ("v0=" ++ hmacHex secret ("v0:" ++ ts ++ ":" ++ rawBody) == sig)
  | _, _ => false

end Slack

namespace JsModel

/-- Boolean form of `strContains`, modelling JS `String.prototype.includes`. -/
def strContainsB (hay needle : String) : Bool := decide (strContains hay needle)

end JsModel

namespace Json

/-- Lowercase hex digit, as produced by `JSON.stringify` for control characters. -/
def hexDigitLower (n : Nat) : Char :=
  if n < 10 then Char.ofNat (48 + n) else Char.ofNat (87 + n)

/-- Escaping of one character inside a JSON string literal, per `JSON.stringify`. -/
def escapeChar (c : Char) : List Char :=
  if c = '"' then ['\\', '"']
  else if c = '\\' then ['\\', '\\']
  else if c = '\n' then ['\\', 'n']
  else if c = '\r' then ['\\', 'r']
  else if c = '\t' then ['\\', 't']
  else if c = Char.ofNat 8 then ['\\', 'b']
  else if c = Char.ofNat 12 then ['\\', 'f']
  else if c.toNat < 32 then
    ['\\', 'u', '0', '0', hexDigitLower (c.toNat / 16), hexDigitLower (c.toNat % 16)]
  else [c]

/-- A JSON string literal for `s`. -/
def quote (s : String) : String := ⟨'"' :: s.data.flatMap escapeChar ++ ['"']⟩

/-- One `"key":"value"` member with a string value. -/
def field (k v : String) : String := quote k ++ ":" ++ quote v

/-- A JSON object from pre-rendered members; `none` members (JS `undefined`
values) are omitted, as `JSON.stringify` does. -/
def obj (members : List (Option String)) : String :=
  "\x7b" ++ JsModel.joinSep "," (members.filterMap id) ++ "\x7d"

end Json

namespace GH

open JsModel

/-- Uppercase hex digit, as produced by `encodeURIComponent`. -/
def hexDigitUpper (n : Nat) : Char :=
  if n < 10 then Char.ofNat (48 + n) else Char.ofNat (55 + n)

/-- UTF-8 bytes of a character. -/
def utf8Bytes (c : Char) : List Nat :=
  let n := c.toNat
  if n < 128 then [n]
  else if n < 2048 then [192 + n / 64, 128 + n % 64]
  else if n < 65536 then [224 + n / 4096, 128 + (n / 64) % 64, 128 + n % 64]
  else [240 + n / 262144, 128 + (n / 4096) % 64, 128 + (n / 64) % 64, 128 + n % 64]

/-- Characters `encodeURIComponent` leaves unescaped. -/
def uriUnreserved (c : Char) : Bool :=
  c.isAlphanum || c = '-' || c = '_' || c = '.' || c = '!' || c = '~' || c = '*'
    || c = Char.ofNat 39 || c = '(' || c = ')'

/-- Model of JS `encodeURIComponent`. -/
def encodeURIComponent (s : String) : String :=
  ⟨s.data.flatMap fun c =>
    if uriUnreserved c then [c]
    else (utf8Bytes c).flatMap fun b => ['%', hexDigitUpper (b / 16), hexDigitUpper (b % 16)]⟩

def b64Char (n : Nat) : Char :=
  "ABCDEFGHIJKLMNOPQRSTUVWXYZabcdefghijklmnopqrstuvwxyz0123456789+/".data.getD n 'A'

def base64Chunks : List Nat → List Char
  | [] => []
  | [a] => [b64Char (a / 4), b64Char ((a % 4) * 16), '=', '=']
  | [a, b] => [b64Char (a / 4), b64Char ((a % 4) * 16 + b / 16), b64Char ((b % 16) * 4), '=']
  | a :: b :: c :: rest =>
      b64Char (a / 4) :: b64Char ((a % 4) * 16 + b / 16) ::
        b64Char ((b % 16) * 4 + c / 64) :: b64Char (c % 64) :: base64Chunks rest

/-- Model of Node `Buffer.prototype.toString("base64")`. -/
def base64Encode (bytes : List Nat) : String := ⟨base64Chunks bytes⟩

/-- `(n / 1024 / 1024).toFixed(2)`: megabyte count with two decimals,
rounded half away from zero on the exact rational value. -/
def mbFixed2 (n : Nat) : String :=
  let scaled := (n * 100 + 524288) / 1048576
  toString (scaled / 100) ++ "." ++ (if scaled % 100 < 10 then "0" else "") ++ toString (scaled % 100)

/-- The `SlackFile` interface of `src/src/lib/github/uploadAsset.ts` /
`src/src/lib/slack/downloadFile.ts`. -/
structure SlackFile where
  id : Option String := none
  url_private_download : Option String := none
  url_private : Option String := none
  name : Option String := none
  mimetype : Option String := none
  size : Option Nat := none
deriving DecidableEq

/-- Result of `downloadSlackFile`: `buffer` holds the streamed bytes. -/
structure DownloadedFile where
  filename : String
  mimetype : String
  buffer : List Nat
  size : Nat
deriving DecidableEq

/-- What the `fetch` of the download URL produced (after the 30s timeout race
and the stream read, whose failures surface as the oracle's `.error`). -/
structure FetchResponse where
  ok : Bool
  status : Nat
  hasBody : Bool
  contentType : String
  bodyText : String
  bytes : List Nat
deriving DecidableEq

structure UploadedAsset where
  filename : String
  url : String
  repoUrl : String
  mimetype : String
  isImage : Bool
deriving DecidableEq

structure UploadError where
  filename : String
  reason : String
deriving DecidableEq

inductive TransferResult where
  | ok (a : UploadedAsset)
  | err (e : UploadError)
deriving DecidableEq

/-- Process environment variables and network oracles used by the pipeline.
`filesInfo` is `callSlackApi("files.info", ...)`, `fetchUrl` the download
fetch, `putFile` the GitHub contents PUT (its `.error` covers the thrown
`GitHub API error: ...`); `pathRand`/`pathTime` stand for
`Math.random().toString(36).slice(-8)` and `Date.now()`. -/
structure Env where
  slackBotToken : Option String := none
  filesInfo : String → Except String SlackFile := fun _ => Except.error "slack api unavailable"
  fetchUrl : String → Except String FetchResponse := fun _ => Except.error "network unavailable"
  githubToken : Option String := none
  githubOwner : Option String := none
  githubRepo : Option String := none
  putFile : String → String → Except String Unit := fun _ _ => Except.error "network unavailable"
  pathRand : String := "00000000"
  pathTime : Nat := 0

/-- Shallow embedding of `downloadSlackFile` (`src/src/lib/slack/downloadFile.ts`).
Thrown exceptions are `.error` results. -/
def downloadSlackFile (env : Env) (file : SlackFile) : Except String DownloadedFile :=
  let filename := file.name.getD "file"
  let mimetype := file.mimetype.getD "application/octet-stream"
  if !jsTruthyStr env.slackBotToken then .error "SLACK_BOT_TOKEN is not set"
  else
    let botToken := env.slackBotToken.getD ""
    if !jsStartsWith botToken "xoxb-" then
      .error ("SLACK_BOT_TOKEN must start with 'xoxb-' (Bot Token), got: "
        ++ strTake botToken 5 ++ "...")
    else
      let resolved : Except String SlackFile :=
        if !jsTruthyStr file.url_private_download && !jsTruthyStr file.url_private
            && jsTruthyStr file.id then
          env.filesInfo (file.id.getD "")
        else .ok file
      match resolved with
      | .error e => .error e
      | .ok fileInfo =>
        -- `fileInfo.url_private_download ?? fileInfo.url_private`
        match (match fileInfo.url_private_download with
               | some u => some u
               | none => fileInfo.url_private) with
        | none => .error ("No download URL for file: " ++ filename)
        | some downloadUrl =>
          match env.fetchUrl downloadUrl with
          | .error e =>
            if strContainsB e "timeout" then
              .error "Slack download timeout: Request took longer than 30 seconds"
            else .error ("Slack download failed: " ++ e)
          | .ok res =>
            if !res.ok || !res.hasBody then
              .error ("Slack download failed: " ++ toString res.status ++ " " ++ res.bodyText)
            else if strContainsB res.contentType "text/html" then
              .error ("Slack returned HTML instead of file: " ++ strTake res.bodyText 200)
            else
              .ok ⟨filename, mimetype, res.bytes, res.bytes.length⟩

/-- Shallow embedding of `createOrUpdateFileContents`
(`src/src/lib/github/uploadAsset.ts`). -/
def createOrUpdateFileContents (env : Env) (owner repo path content message : String) :
    Except String Unit :=
  if !jsTruthyStr env.githubToken then .error "GITHUB_TOKEN is not set"
  else
    let url := "https://api.github.com/repos/" ++ owner ++ "/" ++ repo ++ "/contents/"
      ++ encodeURIComponent path
    env.putFile url (Json.obj [some (Json.field "message" message), some (Json.field "content" content)])

def MAX_FILE_SIZE : Nat := 10 * 1024 * 1024

/-- Shallow embedding of `isSupportedFileType` (`src/src/lib/github/uploadAsset.ts`). -/
def isSupportedFileType (mimetype : String) : Bool :=
  if jsStartsWith mimetype "image/" then true
  else if mimetype = "application/pdf" then true
  else if mimetype = "application/vnd.openxmlformats-officedocument.spreadsheetml.sheet"
      || mimetype = "application/vnd.ms-excel" then true
  else false

/-- Which effectful steps of one transfer actually ran. -/
inductive EngineStep where
  | download
  | commit
deriving DecidableEq

/-- Shallow embedding of `uploadSlackFileToGitHub`
(`src/src/lib/github/uploadAsset.ts`).  The outer `try/catch` that converts any
thrown exception into `UploadError` is rendered by turning every `.error` of a
step into the `.err` result.  Also returns the list of steps reached. -/
def uploadSlackFileToGitHub (env : Env) (file : SlackFile) (issueNumber : String) :
    TransferResult × List EngineStep :=
  let filename := file.name.getD "file"
  let mimetype := file.mimetype.getD "application/octet-stream"
  if !isSupportedFileType mimetype then
    (.err ⟨filename, "Unsupported file type: " ++ mimetype⟩, [])
  else if jsTruthyNat file.size && decide (file.size.getD 0 > MAX_FILE_SIZE) then
    (.err ⟨filename, "File size exceeds 10MB limit: " ++ mbFixed2 (file.size.getD 0) ++ "MB"⟩, [])
  else
    match downloadSlackFile env file with
    | .error m => (.err ⟨filename, m⟩, [.download])
    | .ok downloaded =>
      if downloaded.size > MAX_FILE_SIZE then
        (.err ⟨filename, "File size exceeds 10MB limit: " ++ mbFixed2 downloaded.size ++ "MB"⟩,
          [.download])
      else if !jsTruthyStr env.githubOwner || !jsTruthyStr env.githubRepo then
        (.err ⟨filename, "GITHUB_OWNER or GITHUB_REPO is not set"⟩, [.download])
      else
        let owner := env.githubOwner.getD ""
        let repo := env.githubRepo.getD ""
        let branch := "main"
        let fileDataBase64 := base64Encode downloaded.buffer
        let path := "slack_files/" ++ issueNumber ++ "/" ++ toString env.pathTime ++ "_"
          ++ env.pathRand ++ "_" ++ downloaded.filename
        match createOrUpdateFileContents env owner repo path fileDataBase64
            ("Add file " ++ downloaded.filename ++ " for issue #" ++ issueNumber) with
        | .error m => (.err ⟨filename, m⟩, [.download, .commit])
        | .ok _ =>
          let repoUrl := "https://github.com/" ++ owner ++ "/" ++ repo ++ "/blob/" ++ branch
            ++ "/" ++ encodeURIComponent path
          let previewUrl := "https://github.com/" ++ owner ++ "/" ++ repo ++ "/raw/" ++ branch
            ++ "/" ++ encodeURIComponent path
          (.ok ⟨downloaded.filename, previewUrl, repoUrl, downloaded.mimetype,
            jsStartsWith downloaded.mimetype "image/"⟩, [.download, .commit])

/-- The `AttachmentFile` interface of `src/src/lib/github/formatAttachments.ts`. -/
structure AttachmentFile where
  filename : String
  url : String
  mimetype : String
deriving DecidableEq

/-- `filename.match(/\.(xlsx|xls|csv)$/i)` as a boolean. -/
def matchesSpreadsheetExt (fn : String) : Bool :=
  let l := jsToLower fn
  jsEndsWith l ".xlsx" || jsEndsWith l ".xls" || jsEndsWith l ".csv"

/-- The per-file line of `formatAttachments` (`src/src/lib/github/formatAttachments.ts`). -/
def attachmentLine (f : AttachmentFile) : String :=
  if jsStartsWith f.mimetype "image/" then
    "![" ++ f.filename ++ "](" ++ f.url ++ ")"
  else if f.mimetype = "application/pdf" then
    "📄 [" ++ f.filename ++ "](" ++ f.url ++ ")"
  else if f.mimetype = "application/vnd.openxmlformats-officedocument.spreadsheetml.sheet"
      || f.mimetype = "application/vnd.ms-excel"
      || f.mimetype = "text/csv"
      || matchesSpreadsheetExt f.filename then
    "📊 [" ++ f.filename ++ "](" ++ f.url ++ ")"
  else
    "📎 [" ++ f.filename ++ "](" ++ f.url ++ ")"

/-- Shallow embedding of `formatAttachments` (`src/src/lib/github/formatAttachments.ts`). -/
def formatAttachments (files : List AttachmentFile) : String :=
  if files.length = 0 then ""
  else "\n### 添付ファイル\n" ++ JsModel.joinSep "\n" (files.map attachmentLine) ++ "\n"

end GH

namespace Route

open JsModel GH

/-- Per-file resolve step of `handleSubmit`
(`src/src/app/api/slack/interactivity/route.ts`): `files.info` is called only
when both URL fields are missing/empty and an id is present. -/
def resolveFile (env : Env) (file : SlackFile) : Except String SlackFile :=
  if !jsTruthyStr file.url_private_download && !jsTruthyStr file.url_private
      && jsTruthyStr file.id then
    env.filesInfo (file.id.getD "")
  else .ok file

/-- One iteration of the `for (const file of slackFiles)` loop of
`handleSubmit`: the surrounding `try/catch` turns a thrown resolve failure
into an `UploadError` (`file.name || file.id || "unknown"`); the engine's own
result is pushed as-is. -/
def processFile (env : Env) (issueNumber : String) (file : SlackFile) :
    Except UploadError AttachmentFile :=
  match resolveFile env file with
  | .error m => .error ⟨jsOrStr file.name file.id "unknown", m⟩
  | .ok fileInfo =>
    match (uploadSlackFileToGitHub env fileInfo issueNumber).1 with
    | .ok r => .ok ⟨r.filename, r.url, r.mimetype⟩
    | .err r => .error ⟨r.filename, r.reason⟩

/-- The whole file loop of `handleSubmit`: collects `uploadedFiles` and
`uploadErrors` in file order. -/
def handleSubmitFiles (env : Env) (issueNumber : String) :
    List SlackFile → List AttachmentFile × List UploadError
  | [] => ([], [])
  | f :: rest =>
    let r := processFile env issueNumber f
    let acc := handleSubmitFiles env issueNumber rest
    match r with
    | .ok a => (a :: acc.1, acc.2)
    | .error e => (acc.1, e :: acc.2)

/-- `text.split("\n").map(l => "> " + l).join("\n")`. -/
def quotedText (text : String) : String :=
  joinSep "\n" ((splitOnChar '\n' text).map (fun l => "> " ++ l))

/-- The `errorSection` computed inside `formatIssueComment`
(`src/src/app/api/slack/interactivity/route.ts`). -/
def errorSection (errors : List UploadError) : String :=
  if errors.length > 0 then
    "\n### ⚠️ アップロードできなかったファイル\n"
      ++ joinSep "\n" (errors.map (fun e => "- `" ++ e.filename ++ "`: " ++ e.reason))
      ++ "\n"
  else ""

structure CommentArgs where
  text : String
  user : String
  channel : String
  attachments : String
  errors : List UploadError

/-- Shallow embedding of `formatIssueComment`
(`src/src/app/api/slack/interactivity/route.ts`).  `quoted || "> （本文なし）"`
is JS truthiness on the quoted string. -/
def formatIssueComment (a : CommentArgs) : String :=
  let quoted := quotedText a.text
  jsTrim ("\n## Slackから共有 🧵\n\n**投稿者**: @" ++ a.user ++ "  \n**チャンネル**: #"
    ++ a.channel ++ "\n\n" ++ (if strIsEmpty quoted then "> （本文なし）" else quoted)
    ++ "\n" ++ a.attachments ++ "\n" ++ errorSection a.errors ++ "\n")

/-- The projection of a message file stored in `private_metadata` by
`openIssueSelectModal`. -/
structure MetaFileR where
  id : Option String
  name : Option String
  mimetype : Option String
  url_private_download : Option String
  url_private : Option String
deriving DecidableEq

/-- The `meta` object of `openIssueSelectModal`. -/
structure MetaR where
  text : String
  user : String
  channel : String
  files : List MetaFileR
deriving DecidableEq

/-- `JSON.stringify` of one file projection: `undefined` members are omitted,
member order is insertion order. -/
def serializeMetaFileR (f : MetaFileR) : String :=
  Json.obj [f.id.map (Json.field "id"), f.name.map (Json.field "name"),
    f.mimetype.map (Json.field "mimetype"),
    f.url_private_download.map (Json.field "url_private_download"),
    f.url_private.map (Json.field "url_private")]

/-- `JSON.stringify(meta)` for the route's metadata object. -/
def serializeMetaR (m : MetaR) : String :=
  Json.obj [some (Json.field "text" m.text), some (Json.field "user" m.user),
    some (Json.field "channel" m.channel),
    some (Json.quote "files" ++ ":[" ++ joinSep "," (m.files.map serializeMetaFileR) ++ "]")]

/-- `message_action` payload fields used by `openIssueSelectModal`. -/
structure MessageActionPayload where
  trigger_id : String := ""
  text : Option String := none
  files : Option (List MetaFileR) := none
  userId : String := ""
  username : Option String := none
  channelId : String := ""
  channelName : Option String := none
deriving DecidableEq

/-- Metadata construction and degrade step of `openIssueSelectModal`
(`src/src/app/api/slack/interactivity/route.ts`): build the full projection;
if its JSON exceeds 3000 chars, strip the two URL fields from every file
(keeping `id`, `name`, `mimetype`).  No further step: the result is sent
whatever its final size. -/
def openIssueSelectModalMeta (p : MessageActionPayload) : MetaR :=
  let files := (p.files.getD []).map
    (fun f => MetaFileR.mk f.id f.name f.mimetype f.url_private_download f.url_private)
  let meta : MetaR := ⟨p.text.getD "", p.username.getD p.userId,
    p.channelName.getD p.channelId, files⟩
  let metadataJson := serializeMetaR meta
  if jsLength metadataJson > 3000 then
    let minimalFiles := (p.files.getD []).map
      (fun f => MetaFileR.mk f.id f.name f.mimetype none none)
    { meta with files := minimalFiles }
  else meta

/-- Downstream calls the route handler can make. -/
inductive Call where
  | viewsOpen (privateMetadata : String)
  | postComment (issueNumber : String) (body : String)
deriving DecidableEq

/-- `view_submission` payload fields used by `handleSubmit`. -/
structure SubmissionPayload where
  issueValue : String
  privateMetadata : String
deriving DecidableEq

/-- The parsed `payload` field: `JSON.parse(params.get("payload") || "\x7b\x7d")`
followed by the `payload.type` dispatch. -/
inductive Payload where
  | messageAction (p : MessageActionPayload)
  | viewSubmission (p : SubmissionPayload)
  | other

/-- `JSON.parse(payload.view.private_metadata)` as consumed by `handleSubmit`. -/
structure ParsedMeta where
  text : String := ""
  user : String := ""
  channel : String := ""
  files : Option (List SlackFile) := none

/-- Route environment: the engine environment plus the two parsing oracles
(modelling `URLSearchParams`+`JSON.parse`). -/
structure PostEnv extends Env where
  parsePayload : String → Payload := fun _ => Payload.other
  parseMeta : String → ParsedMeta := fun _ => ⟨"", "", "", none⟩

/-- Shallow embedding of `handleSubmit`: resolves metadata, runs the file
loop, composes the comment.  Returns the collected lists and the body posted
via `postIssueComment`. -/
def handleSubmit (env : PostEnv) (p : SubmissionPayload) :
    (List AttachmentFile × List UploadError) × String :=
  let issueNumber := p.issueValue
  let meta := env.parseMeta p.privateMetadata
  let slackFiles := meta.files.getD []
  let r := handleSubmitFiles env.toEnv issueNumber slackFiles
  let body := formatIssueComment ⟨meta.text, meta.user, meta.channel,
    formatAttachments r.1, r.2⟩
  (r, body)

/-- Shallow embedding of `POST` (`src/src/app/api/slack/interactivity/route.ts`).
Returns `(status, body)` and the downstream calls made (`views.open` with the
serialized `private_metadata`; the comment post for a submission — the
per-file Slack/GitHub calls of the transfer itself are kept inside `Env`).

The source reads `if (!verifySlackRequest(req, rawBody))` without `await`:
`verifySlackRequest` is `async`, so the tested value is a Promise object,
which is always truthy — the 401 branch can never be taken, whatever the
headers contain. -/
def POST (env : PostEnv) (rawBody : String) : (Nat × String) × List Call :=
  let unawaitedVerifyResultIsTruthy := true
  if !unawaitedVerifyResultIsTruthy then ((401, "invalid signature"), [])
  else
    match env.parsePayload rawBody with
    | .messageAction p =>
      ((200, ""), [.viewsOpen (serializeMetaR (openIssueSelectModalMeta p))])
    | .viewSubmission p =>
      let r := handleSubmit env p
      ((200, "\x7b\"response_action\":\"clear\"\x7d"), [.postComment p.issueValue r.2])
    | .other => ((200, ""), [])

end Route

namespace P1

open JsModel GH

/-- The `SlackFile` interface of `src/unnamed/part_001` (no `url_private`,
no `size`). -/
structure P1File where
  id : Option String := none
  name : Option String := none
  url_private_download : Option String := none
  mimetype : Option String := none
deriving DecidableEq

/-- The `meta` object built by `openIssueSelectModal` in `src/unnamed/part_001`. -/
structure Meta where
  text : String := ""
  user : String := ""
  channel : String := ""
  channelId : String := ""
  messageTs : Option String := none
  teamId : Option String := none
  teamDomain : Option String := none
  files : List P1File := []
deriving DecidableEq

/-- `JSON.stringify` of one file projection (member order `id`, `name`,
`url_private_download`, `mimetype`; `undefined` members omitted). -/
def serializeFile (f : P1File) : String :=
  Json.obj [f.id.map (Json.field "id"), f.name.map (Json.field "name"),
    f.url_private_download.map (Json.field "url_private_download"),
    f.mimetype.map (Json.field "mimetype")]

/-- `JSON.stringify(meta)` for `src/unnamed/part_001`'s metadata object. -/
def serializeMeta (m : Meta) : String :=
  Json.obj [some (Json.field "text" m.text), some (Json.field "user" m.user),
    some (Json.field "channel" m.channel), some (Json.field "channelId" m.channelId),
    m.messageTs.map (Json.field "messageTs"), m.teamId.map (Json.field "teamId"),
    m.teamDomain.map (Json.field "teamDomain"),
    some (Json.quote "files" ++ ":[" ++ joinSep "," (m.files.map serializeFile) ++ "]")]

/-- The degrade-until-fits policy of `openIssueSelectModal`
(`src/unnamed/part_001`, lines 125–149): if the JSON exceeds 2900 chars,
strip every file down to `id`+`name`; if it still exceeds 2900 chars, drop
the file list entirely.  The final serialization is sent without a further
check. -/
def degradeMeta (meta : Meta) : Meta :=
  let metadataString := serializeMeta meta
  if jsLength metadataString > 2900 then
    let minimalFiles := meta.files.map (fun f => P1File.mk f.id f.name none none)
    let meta1 := { meta with files := minimalFiles }
    if jsLength (serializeMeta meta1) > 2900 then { meta1 with files := [] } else meta1
  else meta

/-- The `slackLink` computation of `formatIssueComment` (`src/unnamed/part_001`,
lines 333–346): a link is built only when `channelId && messageTs` are truthy;
a truthy `teamDomain` selects the archives-style link (with the first `.` of
the timestamp removed), otherwise a truthy `teamId` selects the client-style
link, otherwise no link. -/
def buildSlackLink (channelId messageTs teamId teamDomain : Option String) : String :=
  if jsTruthyStr channelId && jsTruthyStr messageTs then
    if jsTruthyStr teamDomain then
      "https://" ++ teamDomain.getD "" ++ ".slack.com/archives/" ++ channelId.getD ""
        ++ "/p" ++ jsReplaceFirst (messageTs.getD "") '.' ""
    else if jsTruthyStr teamId then
      "https://app.slack.com/client/" ++ teamId.getD "" ++ "/" ++ channelId.getD ""
        ++ "/message/" ++ messageTs.getD ""
    else ""
  else ""

/-- `slackLinkSection`: the markdown fragment appended when a link was built. -/
def slackLinkSection (slackLink : String) : String :=
  if !strIsEmpty slackLink then
    "**元のメッセージ**: [Slackで見る](" ++ slackLink ++ ")  "
  else ""

structure CommentArgs where
  text : String := ""
  user : String := ""
  channel : String := ""
  channelId : Option String := none
  messageTs : Option String := none
  teamId : Option String := none
  teamDomain : Option String := none
  attachments : String := ""
  errors : List UploadError := []

/-- Shallow embedding of `formatIssueComment` (`src/unnamed/part_001`,
lines 296–363). -/
def formatIssueComment (a : CommentArgs) : String :=
  let quoted := Route.quotedText a.text
  let slackLink := buildSlackLink a.channelId a.messageTs a.teamId a.teamDomain
  jsTrim ("\n## Slackから共有 🧵\n\n**投稿者**: @" ++ a.user ++ "  \n**チャンネル**: #"
    ++ a.channel ++ "  \n" ++ slackLinkSection slackLink ++ "\n\n"
    ++ (if strIsEmpty quoted then "> （本文なし）" else quoted)
    ++ "\n" ++ a.attachments ++ "\n" ++ Route.errorSection a.errors ++ "\n")

/-- Result of `downloadAndStoreSlackFile`. -/
structure BlobFile where
  url : String
  filename : String
  mimetype : String
deriving DecidableEq

/-- Success shape of `uploadBlobFileToGitHub`. -/
structure P1Asset where
  filename : String
  url : String
  isImage : Bool
deriving DecidableEq

/-- The non-thrown outcome of `uploadBlobFileToGitHub` (`"url" in result`
distinguishes the union members). -/
inductive P1UploadOutcome where
  | ok (a : P1Asset)
  | err (filename reason : String)
deriving DecidableEq

/-- The uploaded-file projection pushed by `handleSubmit` (`src/unnamed/part_001`). -/
structure P1Up where
  filename : String
  url : String
  isImage : Bool
deriving DecidableEq

/-- Oracles for `src/unnamed/part_001`'s submission pipeline; each `.error`
is a thrown exception. -/
structure P1Env where
  filesInfo : String → Except String P1File := fun _ => Except.error "slack api unavailable"
  downloadAndStore : Option String → Option String → Option String → Except String BlobFile :=
    fun _ _ _ => Except.error "network unavailable"
  uploadBlob : BlobFile → String → Except String P1UploadOutcome :=
    fun _ _ => Except.error "network unavailable"
  deleteBlob : String → Except String Unit := fun _ => Except.error "network unavailable"

/-- Effectful steps of one iteration of `src/unnamed/part_001`'s file loop. -/
inductive P1Step where
  | filesInfo
  | downloadAndStore
  | uploadBlob
  | deleteBlob
deriving DecidableEq

/-- The body of the loop after the `files.info` resolve: URL presence check,
download-and-store, upload, blob cleanup; the `try/catch` turns any thrown
step into an `UploadError` (`fileInfo.name || file.id || "unknown"`) without
touching sibling files.  `file` is the original element (its `id` is used in
the catch filename), `fileInfo` the possibly-resolved record. -/
def processResolved (env : P1Env) (issueNumber : String) (file fileInfo : P1File) :
    (List P1Up × List UploadError) × List P1Step :=
  if !jsTruthyStr fileInfo.url_private_download then
    (([], [⟨jsOrStr fileInfo.name fileInfo.id "unknown", "ダウンロードURLが取得できませんでした"⟩]), [])
  else
    match env.downloadAndStore fileInfo.url_private_download fileInfo.name fileInfo.mimetype with
    | .error m =>
      (([], [⟨jsOrStr fileInfo.name file.id "unknown", m⟩]), [.downloadAndStore])
    | .ok blobFile =>
      match env.uploadBlob blobFile issueNumber with
      | .error m =>
        (([], [⟨jsOrStr fileInfo.name file.id "unknown", m⟩]), [.downloadAndStore, .uploadBlob])
      | .ok (.ok r) =>
        match env.deleteBlob blobFile.url with
        | .ok _ =>
          (([⟨r.filename, r.url, r.isImage⟩], []),
            [.downloadAndStore, .uploadBlob, .deleteBlob])
        | .error m =>
          (([⟨r.filename, r.url, r.isImage⟩], [⟨jsOrStr fileInfo.name file.id "unknown", m⟩]),
            [.downloadAndStore, .uploadBlob, .deleteBlob])
      | .ok (.err fn reason) =>
        match env.deleteBlob blobFile.url with
        | .ok _ =>
          (([], [⟨fn, reason⟩]), [.downloadAndStore, .uploadBlob, .deleteBlob])
        | .error m =>
          (([], [⟨fn, reason⟩, ⟨jsOrStr fileInfo.name file.id "unknown", m⟩]),
            [.downloadAndStore, .uploadBlob, .deleteBlob])

/-- One iteration of the `for (const file of slackFiles)` loop of
`src/unnamed/part_001`'s `handleSubmit` (lines 199–279): when the file has an
id and lacks a download URL or a MIME type, `files.info` is called first to
fill the gaps; its failure is caught per-file and the loop continues. -/
def processOneP1 (env : P1Env) (issueNumber : String) (file : P1File) :
    (List P1Up × List UploadError) × List P1Step :=
  if jsTruthyStr file.id
      && (!jsTruthyStr file.url_private_download || !jsTruthyStr file.mimetype) then
    match env.filesInfo (file.id.getD "") with
    | .error m =>
      (([], [⟨jsOrStr file.name file.id "unknown", m⟩]), [.filesInfo])
    | .ok resp =>
      let fileInfo : P1File := ⟨file.id, resp.name.orElse (fun _ => file.name),
        resp.url_private_download, resp.mimetype.orElse (fun _ => file.mimetype)⟩
      let r := processResolved env issueNumber file fileInfo
      (r.1, .filesInfo :: r.2)
  else processResolved env issueNumber file file

/-- The whole file loop: per-file results concatenated in file order. -/
def handleSubmitFilesP1 (env : P1Env) (issueNumber : String) :
    List P1File → (List P1Up × List UploadError) × List P1Step
  | [] => (([], []), [])
  | f :: rest =>
    let h := processOneP1 env issueNumber f
    let t := handleSubmitFilesP1 env issueNumber rest
    ((h.1.1 ++ t.1.1, h.1.2 ++ t.1.2), h.2 ++ t.2)

end P1

namespace Fixtures

open JsModel GH

/-- Concrete stand-in for the HMAC-SHA256 hex oracle in closed statements:
any function of (secret, message) exercises the verifier's control flow. -/
def hmacTag : String → String → String := fun secret msg => "hmac[" ++ secret ++ "|" ++ msg ++ "]"

/-- A signature computed (with the secret) over the non-numeric timestamp `"x"`
and body `"b"`: exactly what the signing side would send for that request. -/
def sigForged : String := "v0=" ++ hmacTag "s" "v0:x:b"

/-- A valid signature over timestamp `"100"` and body `"b"`. -/
def sigValid : String := "v0=" ++ hmacTag "s" "v0:100:b"

/-- A valid signature over the float timestamp `"100.5"` and body `"b"`:
JS `Number("100.5")` is a number, so the freshness window applies to it. -/
def sigFloat : String := "v0=" ++ hmacTag "s" "v0:100.5:b"

def longText : String := ⟨List.replicate 3001 'a'⟩

/-- Metadata whose oversized serialization is due to `text` alone. -/
def metaOversizeText : P1.Meta :=
  { text := longText, user := "u", channel := "c", channelId := "C1" }

def longUrl : String := ⟨List.replicate 3000 'u'⟩

/-- Metadata pushed over the limit only by a file's download URL. -/
def metaBigFiles : P1.Meta :=
  { text := "hello", user := "u", channel := "general", channelId := "C1",
    files := [{ id := some "F1", name := some "shot.png",
                url_private_download := some longUrl, mimetype := some "image/png" }] }

def bytesPng : List Nat := [137, 80, 78, 71]

def fetchOkPng : FetchResponse :=
  { ok := true, status := 200, hasBody := true, contentType := "image/png",
    bodyText := "", bytes := bytesPng }

/-- Environment in which every step succeeds. -/
def envOkBase : Env :=
  { slackBotToken := some "xoxb-token",
    filesInfo := fun _ => Except.error "files.info unavailable",
    fetchUrl := fun _ => Except.ok fetchOkPng,
    githubToken := some "ghp", githubOwner := some "owner", githubRepo := some "repo",
    putFile := fun _ _ => Except.ok (), pathRand := "abcd1234", pathTime := 1700000000000 }

/-- Environment where only the fetch of `bad.png`'s URL throws. -/
def envOneFetchFails : Env :=
  { envOkBase with fetchUrl := fun url =>
      if url = "https://files/bad.png" then Except.error "socket hang up"
      else Except.ok fetchOkPng }

def goodFile : SlackFile :=
  { id := some "F1", name := some "good.png", mimetype := some "image/png",
    url_private_download := some "https://files/good.png" }

def badFile : SlackFile :=
  { id := some "F2", name := some "bad.png", mimetype := some "image/png",
    url_private_download := some "https://files/bad.png" }

/-- Unsupported type AND oversized declared size. -/
def zipFile : SlackFile :=
  { id := some "F3", name := some "archive.zip", mimetype := some "application/zip",
    url_private_download := some "https://files/archive.zip", size := some 11534336 }

def csvFile : SlackFile :=
  { id := some "F4", name := some "data.csv", mimetype := some "text/csv",
    url_private_download := some "https://files/data.csv" }

/-- Supported type with declared size over 10 MiB (11 MiB). -/
def bigPdf : SlackFile :=
  { id := some "F5", name := some "big.pdf", mimetype := some "application/pdf",
    url_private_download := some "https://files/big.pdf", size := some 11534336 }

def actionPayload : Route.MessageActionPayload :=
  { trigger_id := "trig", text := some "hello", files := some [],
    userId := "U1", username := some "alice", channelId := "C1", channelName := some "general" }

/-- Route environment whose parser yields a `message_action`; used with a
request that carries no signature headers at all. -/
def postEnvForged : Route.PostEnv :=
  { toEnv := envOkBase, parsePayload := fun _ => Route.Payload.messageAction actionPayload }

def p1EnvInfoFails : P1.P1Env :=
  { filesInfo := fun _ => Except.error "files.info failed" }

/-- A metadata file entry that survived degradation: id and name only. -/
def p1FileIdOnly : P1.P1File := { id := some "F9", name := some "doc.pdf" }

def p1FileComplete : P1.P1File :=
  { id := some "F8", name := some "pic.png",
    url_private_download := some "https://files/pic.png", mimetype := some "image/png" }

end Fixtures

section TrimLemmas

open JsModel

theorem dropWhile_append_keep {p : Char → Bool} {l₁ : List Char} (l₂ : List Char)
    (h : ∃ c ∈ l₁, p c = false) :
    List.dropWhile p (l₁ ++ l₂) = List.dropWhile p l₁ ++ l₂ := by
  induction l₁ with
  | nil => simp at h
  | cons a t ih =>
    by_cases hp : p a = true
    · obtain ⟨c, hc, hcf⟩ := h
      rcases List.mem_cons.mp hc with he | ht
      · subst he; rw [hp] at hcf; cases hcf
      · simp only [List.cons_append, List.dropWhile_cons, hp, if_true]
        exact ih ⟨c, ht, hcf⟩
    · simp [List.dropWhile_cons, hp]

theorem infix_trimList {pre needle suf : List Char}
    (hpre : ∃ c ∈ pre, isJsWs c = false) (hsuf : ∃ c ∈ suf, isJsWs c = false) :
    needle <:+: trimList (pre ++ needle ++ suf) := by
  have hsufr : ∃ c ∈ suf.reverse, isJsWs c = false := by
    obtain ⟨c, hc, hf⟩ := hsuf; exact ⟨c, List.mem_reverse.mpr hc, hf⟩
  have h1 : List.dropWhile isJsWs (pre ++ needle ++ suf)
      = List.dropWhile isJsWs pre ++ (needle ++ suf) := by
    rw [List.append_assoc]; exact dropWhile_append_keep _ hpre
  have h2 : trimList (pre ++ needle ++ suf)
      = (List.dropWhile isJsWs pre ++ needle)
        ++ (List.dropWhile isJsWs suf.reverse).reverse := by
    unfold trimList
    rw [h1]
    rw [show (List.dropWhile isJsWs pre ++ (needle ++ suf)).reverse
        = suf.reverse ++ (needle.reverse ++ (List.dropWhile isJsWs pre).reverse) by
      simp [List.reverse_append, List.append_assoc]]
    rw [dropWhile_append_keep _ hsufr]
    simp [List.reverse_append, List.append_assoc]
  rw [h2]
  exact List.infix_append _ _ _

theorem strContains_jsTrim_decomp {S p s needle : String}
    (hS : S = p ++ (needle ++ s))
    (hp : ∃ c ∈ p.data, isJsWs c = false) (hs : ∃ c ∈ s.data, isJsWs c = false) :
    strContains (jsTrim S) needle := by
  subst hS
  unfold strContains jsTrim
  have hdata : (p ++ (needle ++ s)).data = p.data ++ needle.data ++ s.data := by
    simp [String.data_append, List.append_assoc]
  show needle.data <:+: trimList (p ++ (needle ++ s)).data
  rw [hdata]
  exact infix_trimList hp hs

theorem exists_nonws_append_left {a : String} (b : String)
    (h : ∃ c ∈ a.data, isJsWs c = false) : ∃ c ∈ (a ++ b).data, isJsWs c = false := by
  obtain ⟨c, hc, hf⟩ := h
  exact ⟨c, by rw [String.data_append]; exact List.mem_append_left _ hc, hf⟩

theorem exists_nonws_append_right (a : String) {b : String}
    (h : ∃ c ∈ b.data, isJsWs c = false) : ∃ c ∈ (a ++ b).data, isJsWs c = false := by
  obtain ⟨c, hc, hf⟩ := h
  exact ⟨c, by rw [String.data_append]; exact List.mem_append_right _ hc, hf⟩

theorem strContains_prefix (a b : String) : strContains (a ++ b) a := by
  unfold strContains
  rw [String.data_append]
  exact ⟨[], b.data, by simp⟩

theorem joinSep_cons_exists (s x : String) (xs : List String) :
    ∃ r, joinSep s (x :: xs) = x ++ r := by
  cases xs with
  | nil => exact ⟨"", by simp [joinSep]⟩
  | cons y ys =>
    refine ⟨s ++ joinSep s (y :: ys), ?_⟩
    simp [joinSep, String.append_assoc]

end TrimLemmas


section EngineLemmas

open JsModel GH

theorem downloadSlackFile_ok_fields {env : Env} {file : SlackFile} {d : DownloadedFile}
    (h : downloadSlackFile env file = .ok d) :
    d.filename = file.name.getD "file"
      ∧ d.mimetype = file.mimetype.getD "application/octet-stream" := by
  unfold downloadSlackFile at h
  dsimp only [] at h
  repeat' split at h
  all_goals first
    | (cases h; exact ⟨rfl, rfl⟩)
    | exact absurd h (by simp)

theorem uploadSlackFileToGitHub_ok_mimetype {env : Env} {file : SlackFile} {issue : String}
    {a : UploadedAsset} {tr : List EngineStep}
    (h : uploadSlackFileToGitHub env file issue = (.ok a, tr)) :
    isSupportedFileType a.mimetype = true := by
  unfold uploadSlackFileToGitHub at h
  dsimp only [] at h
  split at h
  case isTrue => exact absurd h (by simp)
  case isFalse hgate =>
    split at h
    case isTrue => exact absurd h (by simp)
    case isFalse hsize =>
      split at h
      case h_1 => exact absurd h (by simp)
      case h_2 downloaded hdl =>
        split at h
        case isTrue => exact absurd h (by simp)
        case isFalse hbig =>
          split at h
          case isTrue => exact absurd h (by simp)
          case isFalse hor =>
            split at h
            case h_1 => exact absurd h (by simp)
            case h_2 =>
              simp only [Prod.mk.injEq, TransferResult.ok.injEq] at h
              obtain ⟨ha, -⟩ := h
              have hm := (downloadSlackFile_ok_fields hdl).2
              rw [← ha]
              show isSupportedFileType downloaded.mimetype = true
              rw [hm]
              simpa using hgate

theorem uploadSlackFileToGitHub_unsupported (env : Env) (file : SlackFile)
    (issue : String)
    (h : isSupportedFileType (file.mimetype.getD "application/octet-stream") = false) :
    uploadSlackFileToGitHub env file issue
      = (.err ⟨file.name.getD "file",
          "Unsupported file type: " ++ file.mimetype.getD "application/octet-stream"⟩, []) := by
  unfold uploadSlackFileToGitHub
  dsimp only []
  rw [h]
  rfl

theorem uploadSlackFileToGitHub_presize_eq (env : Env) (file : SlackFile)
    (issue : String)
    (ht : isSupportedFileType (file.mimetype.getD "application/octet-stream") = true)
    (hsz : (jsTruthyNat file.size
      && decide (file.size.getD 0 > MAX_FILE_SIZE)) = true) :
    uploadSlackFileToGitHub env file issue
      = (.err ⟨file.name.getD "file",
          "File size exceeds 10MB limit: " ++ mbFixed2 (file.size.getD 0) ++ "MB"⟩, []) := by
  unfold uploadSlackFileToGitHub
  dsimp only []
  rw [ht, hsz]
  rfl

end EngineLemmas

section RouteLemmas

open JsModel GH

theorem resolveFile_ok_of_url (env : Env) (file : SlackFile)
    (hurl : jsTruthyStr file.url_private_download = true) :
    Route.resolveFile env file = .ok file := by
  unfold Route.resolveFile
  rw [hurl]
  simp

theorem processFile_err_of_download_error (env : Env) (issue : String) (bad : SlackFile)
    (m : String)
    (hurl : jsTruthyStr bad.url_private_download = true)
    (htype : isSupportedFileType (bad.mimetype.getD "application/octet-stream") = true)
    (hsize : (jsTruthyNat bad.size && decide (bad.size.getD 0 > MAX_FILE_SIZE)) = false)
    (hdl : downloadSlackFile env bad = .error m) :
    Route.processFile env issue bad = .error ⟨bad.name.getD "file", m⟩ := by
  have heng : uploadSlackFileToGitHub env bad issue
      = (.err ⟨bad.name.getD "file", m⟩, [EngineStep.download]) := by
    unfold uploadSlackFileToGitHub
    dsimp only []
    rw [htype, hsize, hdl]
    simp
  unfold Route.processFile
  rw [resolveFile_ok_of_url env bad hurl]
  dsimp only []
  rw [heng]

theorem handleSubmitFiles_all_ok (env : Env) (issue : String) (l : List SlackFile)
    (h : ∀ f ∈ l, ∃ a, Route.processFile env issue f = .ok a) :
    (Route.handleSubmitFiles env issue l).2 = []
      ∧ (Route.handleSubmitFiles env issue l).1.length = l.length := by
  induction l with
  | nil => simp [Route.handleSubmitFiles]
  | cons f t ih =>
    obtain ⟨a, ha⟩ := h f (by simp)
    have iht := ih (fun g hg => h g (by simp [hg]))
    simp [Route.handleSubmitFiles, ha, iht.1, iht.2]

theorem handleSubmitFiles_append (env : Env) (issue : String) (l₁ l₂ : List SlackFile) :
    Route.handleSubmitFiles env issue (l₁ ++ l₂)
      = ((Route.handleSubmitFiles env issue l₁).1 ++ (Route.handleSubmitFiles env issue l₂).1,
         (Route.handleSubmitFiles env issue l₁).2 ++ (Route.handleSubmitFiles env issue l₂).2) := by
  induction l₁ with
  | nil => simp [Route.handleSubmitFiles]
  | cons f t ih =>
    simp only [List.cons_append, Route.handleSubmitFiles, ih]
    cases Route.processFile env issue f <;> simp [ih]

end RouteLemmas

section MoreStringLemmas

open JsModel

theorem strContains_chunk (a n r : String) : strContains (a ++ (n ++ r)) n := by
  unfold strContains
  rw [String.data_append, String.data_append]
  exact ⟨a.data, r.data, by simp⟩

theorem str_append_ne_empty (s t : String) (h : s ≠ "") : s ++ t ≠ "" := by
  intro he
  apply h
  have hd := congrArg String.data he
  rw [String.data_append] at hd
  exact String.ext (List.append_eq_nil.mp hd).1

end MoreStringLemmas

/-- Claim C6: a FileRef whose declared MIME type (defaulted to
`application/octet-stream` when absent) is not on the allow-list always gets
an `UploadError` whose reason contains "Unsupported file type", and the
download step is never reached (the step trace is empty). -/
theorem unsupported_type_rejection (env : GH.Env) (file : GH.SlackFile) (issue : String)
    (h : GH.isSupportedFileType (file.mimetype.getD "application/octet-stream") = false) :
    GH.uploadSlackFileToGitHub env file issue
      = (.err ⟨file.name.getD "file",
          "Unsupported file type: " ++ file.mimetype.getD "application/octet-stream"⟩, [])
    ∧ JsModel.strContains
        ("Unsupported file type: " ++ file.mimetype.getD "application/octet-stream")
        "Unsupported file type" := by
  constructor
  · exact uploadSlackFileToGitHub_unsupported env file issue h
  · rw [show ("Unsupported file type: " : String)
        = "Unsupported file type" ++ ": " from by decide]
    rw [String.append_assoc]
    exact strContains_prefix _ _

/-- Claim C6 witness: a zip file is rejected with the exact reason and an
empty step trace. -/
theorem unsupported_type_rejection_witness :
    GH.isSupportedFileType "application/zip" = false
    ∧ GH.uploadSlackFileToGitHub Fixtures.envOkBase Fixtures.zipFile "12"
        = (.err ⟨"archive.zip", "Unsupported file type: application/zip"⟩, []) := by
  refine ⟨by decide, ?_⟩
  have h := (unsupported_type_rejection Fixtures.envOkBase Fixtures.zipFile "12" (by decide)).1
  rw [h]
  rfl

/-- Claim C5 counterexample: a FileRef with declared size 11 MiB (> 10 MiB)
but an unsupported MIME type gets the type-gate error, not an error about the
10MB limit — the type gate runs before the pre-flight size check, refuting
"returns an UploadError about the 10MB limit" as stated. -/
theorem oversize_unsupported_counterexample :
    Fixtures.zipFile.size = some 11534336
    ∧ 11534336 > GH.MAX_FILE_SIZE
    ∧ GH.uploadSlackFileToGitHub Fixtures.envOkBase Fixtures.zipFile "12"
        = (.err ⟨"archive.zip", "Unsupported file type: application/zip"⟩, [])
    ∧ ¬ JsModel.strContains "Unsupported file type: application/zip" "10MB" := by
  exact ⟨rfl, by decide, by decide, by decide⟩

/-- Claim C5 (amended): a FileRef with declared size over 10 MiB never reaches
the download step (the step trace is empty, whatever the MIME type), and when
its MIME type passes the allow-list the engine returns the 10MB-limit
`UploadError`, whose reason contains "10MB limit". -/
theorem presize_short_circuit (env : GH.Env) (file : GH.SlackFile) (issue : String) (n : Nat)
    (hn : file.size = some n) (hbig : n > GH.MAX_FILE_SIZE) :
    (GH.uploadSlackFileToGitHub env file issue).2 = []
    ∧ (GH.isSupportedFileType (file.mimetype.getD "application/octet-stream") = true →
        GH.uploadSlackFileToGitHub env file issue
          = (.err ⟨file.name.getD "file",
              "File size exceeds 10MB limit: " ++ GH.mbFixed2 n ++ "MB"⟩, []))
    ∧ JsModel.strContains
        ("File size exceeds 10MB limit: " ++ GH.mbFixed2 n ++ "MB") "10MB limit" := by
  have hsz : (JsModel.jsTruthyNat file.size
      && decide (file.size.getD 0 > GH.MAX_FILE_SIZE)) = true := by
    rw [hn]
    simp only [JsModel.jsTruthyNat, Option.getD_some]
    have h0 : n ≠ 0 := by
      intro h
      rw [h] at hbig
      exact absurd hbig (by decide)
    simp [h0, hbig]
  have hget : GH.mbFixed2 (file.size.getD 0) = GH.mbFixed2 n := by
    rw [hn]
    rfl
  refine ⟨?_, ?_, ?_⟩
  · by_cases ht : GH.isSupportedFileType (file.mimetype.getD "application/octet-stream") = true
    · rw [uploadSlackFileToGitHub_presize_eq env file issue ht hsz]
    · rw [Bool.not_eq_true] at ht
      rw [uploadSlackFileToGitHub_unsupported env file issue ht]
  · intro ht
    rw [uploadSlackFileToGitHub_presize_eq env file issue ht hsz, hget]
  · have hgen : ∀ s : String, JsModel.strContains
        ("File size exceeds 10MB limit: " ++ s ++ "MB") "10MB limit" := by
      intro s
      rw [show ("File size exceeds 10MB limit: " : String)
          = "File size exceeds " ++ ("10MB limit" ++ ": ") from by decide]
      rw [String.append_assoc, String.append_assoc]
      exact strContains_chunk _ _ _
    exact hgen (GH.mbFixed2 n)

/-- Claim C5 witness: an 11 MiB PDF (supported type) is rejected by the
pre-flight size check with the 10MB-limit reason and an empty step trace. -/
theorem presize_short_circuit_witness :
    Fixtures.bigPdf.size = some 11534336
    ∧ 11534336 > GH.MAX_FILE_SIZE
    ∧ GH.uploadSlackFileToGitHub Fixtures.envOkBase Fixtures.bigPdf "12"
        = (.err ⟨"big.pdf", "File size exceeds 10MB limit: 11.00MB"⟩, []) := by
  refine ⟨rfl, by decide, ?_⟩
  have h := (presize_short_circuit Fixtures.envOkBase Fixtures.bigPdf "12" 11534336
    rfl (by decide)).2.1 (by decide)
  rw [h]
  decide

/-- Claim C10: the allow-list accepts exactly `image/*`, `application/pdf` and
the two Excel MIME types; `text/csv` is rejected by the engine with an
"Unsupported file type" error and an empty step trace, every successfully
uploaded asset carries an allow-listed MIME type (hence never `text/csv`), yet
the comment composer has a dedicated spreadsheet branch for `text/csv` — that
branch is unreachable through the engine's successful-upload path. -/
theorem csv_allowlist_gap :
    (∀ m : String, GH.isSupportedFileType m = true ↔
      (JsModel.jsStartsWith m "image/" = true ∨ m = "application/pdf"
        ∨ m = "application/vnd.openxmlformats-officedocument.spreadsheetml.sheet"
        ∨ m = "application/vnd.ms-excel"))
    ∧ GH.isSupportedFileType "text/csv" = false
    ∧ (∀ (env : GH.Env) (issue : String),
        GH.uploadSlackFileToGitHub env Fixtures.csvFile issue
          = (.err ⟨"data.csv", "Unsupported file type: text/csv"⟩, []))
    ∧ (∀ (env : GH.Env) (file : GH.SlackFile) (issue : String) (a : GH.UploadedAsset)
          (tr : List GH.EngineStep),
        GH.uploadSlackFileToGitHub env file issue = (.ok a, tr) →
          GH.isSupportedFileType a.mimetype = true ∧ a.mimetype ≠ "text/csv")
    ∧ (∀ url : String, GH.attachmentLine ⟨"data.csv", url, "text/csv"⟩
        = "📊 [" ++ "data.csv" ++ "](" ++ url ++ ")") := by
  refine ⟨?_, by decide, ?_, ?_, ?_⟩
  · intro m
    unfold GH.isSupportedFileType
    repeat' split
    all_goals simp_all
  · intro env issue
    rfl
  · intro env file issue a tr h
    have hsup := uploadSlackFileToGitHub_ok_mimetype h
    refine ⟨hsup, ?_⟩
    intro hc
    rw [hc] at hsup
    exact absurd hsup (by decide)
  · intro url
    rfl

/-- Claim C10 witness: a successful upload (image file, all steps succeed)
yields an asset whose MIME type is on the allow-list and is not `text/csv`. -/
theorem csv_allowlist_gap_witness :
    GH.uploadSlackFileToGitHub Fixtures.envOkBase Fixtures.goodFile "12"
      = (.ok ⟨"good.png",
          "https://github.com/owner/repo/raw/main/slack_files%2F12%2F1700000000000_abcd1234_good.png",
          "https://github.com/owner/repo/blob/main/slack_files%2F12%2F1700000000000_abcd1234_good.png",
          "image/png", true⟩, [GH.EngineStep.download, GH.EngineStep.commit])
    ∧ GH.isSupportedFileType "image/png" = true
    ∧ ("image/png" : String) ≠ "text/csv" := by
  have h := csv_allowlist_gap.2.2.2.1 Fixtures.envOkBase Fixtures.goodFile "12"
    (⟨"good.png",
      "https://github.com/owner/repo/raw/main/slack_files%2F12%2F1700000000000_abcd1234_good.png",
      "https://github.com/owner/repo/blob/main/slack_files%2F12%2F1700000000000_abcd1234_good.png",
      "image/png", true⟩ : GH.UploadedAsset)
    [GH.EngineStep.download, GH.EngineStep.commit] (by decide)
  exact ⟨by decide, h.1, h.2⟩

/-- Claim C2 counterexample: for the non-numeric timestamp header `"x"` (JS
`Number("x")` is NaN, so `Math.abs(now - NaN) > 300` is false and the
freshness check is bypassed) a correctly-signed request verifies even though
the spec's condition `|now - timestamp| ≤ 300` cannot hold; the spec-side
acceptance predicate is false while the code accepts. -/
theorem verify_nan_timestamp_counterexample :
    Slack.verifySlackRequest Fixtures.hmacTag "s" 1000 (some "x") (some Fixtures.sigForged) "b"
      = true
    ∧ JsModel.jsNumber "x" = JsModel.JsNum.nan
    ∧ Slack.specVerifyOk Fixtures.hmacTag "s" 1000 (some "x") (some Fixtures.sigForged) "b"
      = false := by
  exact ⟨by decide, by decide, by decide⟩

/-- Claim C2 (amended): `verify` never throws (it is a total boolean function)
and returns true iff both headers are present and non-empty, the provided
signature equals `v0=` followed by the HMAC of `v0:{ts}:{body}`, and
`Number(ts)` — whenever it is a finite number `n / d` — lies within 300
seconds of now (`|now·d − n| ≤ 300·d`); a NaN timestamp bypasses the
freshness check while an infinite one always fails it; moreover mutating the
body from a verified request flips the result to false whenever the HMAC of
the mutated base string differs from the original one. -/
theorem verify_characterization (hmacHex : String → String → String) (secret : String)
    (now : Int) (ts? sig? : Option String) (body : String) :
    (Slack.verifySlackRequest hmacHex secret now ts? sig? body = true ↔
      ∃ ts sig, ts? = some ts ∧ sig? = some sig
        ∧ ts ≠ "" ∧ sig ≠ ""
        ∧ (∀ n d, JsModel.jsNumber ts = JsModel.JsNum.finite n d →
            (now * (d : Int) - n).natAbs ≤ 300 * d)
        ∧ JsModel.jsNumber ts ≠ JsModel.JsNum.posInf
        ∧ JsModel.jsNumber ts ≠ JsModel.JsNum.negInf
        ∧ sig = "v0=" ++ hmacHex secret ("v0:" ++ ts ++ ":" ++ body))
    ∧ (∀ body', Slack.verifySlackRequest hmacHex secret now ts? sig? body = true →
        hmacHex secret ("v0:" ++ ts?.getD "" ++ ":" ++ body')
          ≠ hmacHex secret ("v0:" ++ ts?.getD "" ++ ":" ++ body) →
        Slack.verifySlackRequest hmacHex secret now ts? sig? body' = false) := by
  have hchar : ∀ b, Slack.verifySlackRequest hmacHex secret now ts? sig? b = true ↔
      ∃ ts sig, ts? = some ts ∧ sig? = some sig
        ∧ ts ≠ "" ∧ sig ≠ ""
        ∧ (∀ n d, JsModel.jsNumber ts = JsModel.JsNum.finite n d →
            (now * (d : Int) - n).natAbs ≤ 300 * d)
        ∧ JsModel.jsNumber ts ≠ JsModel.JsNum.posInf
        ∧ JsModel.jsNumber ts ≠ JsModel.JsNum.negInf
        ∧ sig = "v0=" ++ hmacHex secret ("v0:" ++ ts ++ ":" ++ b) := by
    intro b
    cases ts? with
    | none => simp [Slack.verifySlackRequest]
    | some ts =>
      cases sig? with
      | none => simp [Slack.verifySlackRequest]
      | some sig =>
        unfold Slack.verifySlackRequest
        dsimp only []
        have hemp : ∀ s : String, JsModel.strIsEmpty s = true ↔ s = "" := by
          intro s
          constructor
          · intro h
            exact String.ext (List.isEmpty_iff.mp h)
          · intro h
            rw [h]
            rfl
        by_cases he : (JsModel.strIsEmpty ts || JsModel.strIsEmpty sig) = true
        · rw [if_pos he]
          simp only [Bool.or_eq_true, hemp] at he
          constructor
          · intro h
            cases h
          · rintro ⟨ts', sig', hts, hsig, hne1, hne2, -, -, -, -⟩
            cases hts
            cases hsig
            rcases he with h | h
            · exact absurd h hne1
            · exact absurd h hne2
        · rw [if_neg he]
          simp only [Bool.or_eq_true, hemp, not_or] at he
          obtain ⟨hne1, hne2⟩ := he
          cases hnum : JsModel.jsNumber ts with
          | nan =>
            simp only [hnum]
            constructor
            · intro h
              refine ⟨ts, sig, rfl, rfl, ?_, ?_, ?_, ?_, ?_, ?_⟩
              · intro h'; exact hne1 h'
              · intro h'; exact hne2 h'
              · intro n d hd; rw [hnum] at hd; cases hd
              · rw [hnum]; simp
              · rw [hnum]; simp
              · have heq : "v0=" ++ hmacHex secret ("v0:" ++ ts ++ ":" ++ b) = sig := by
                  simpa using h
                exact heq.symm
            · rintro ⟨ts', sig', hts, hsig, -, -, -, -, -, hs⟩
              cases hts
              cases hsig
              simp [hs]
          | posInf =>
            simp only [hnum]
            constructor
            · intro h
              exact absurd h (by simp)
            · rintro ⟨ts', sig', hts, hsig, -, -, -, hpos, -, -⟩
              cases hts
              cases hsig
              exact absurd hnum hpos
          | negInf =>
            simp only [hnum]
            constructor
            · intro h
              exact absurd h (by simp)
            · rintro ⟨ts', sig', hts, hsig, -, -, -, -, hneg, -⟩
              cases hts
              cases hsig
              exact absurd hnum hneg
          | finite n d =>
            simp only [hnum]
            by_cases hst : (now * (d : Int) - n).natAbs > 300 * d
            · rw [if_pos (by simpa using hst)]
              constructor
              · intro h
                cases h
              · rintro ⟨ts', sig', hts, hsig, -, -, hfr, -, -, -⟩
                cases hts
                cases hsig
                exact absurd (hfr n d hnum) (Nat.not_le.mpr hst)
            · rw [if_neg (by simpa using hst)]
              constructor
              · intro h
                refine ⟨ts, sig, rfl, rfl, ?_, ?_, ?_, ?_, ?_, ?_⟩
                · intro h'; exact hne1 h'
                · intro h'; exact hne2 h'
                · intro n' d' hd'
                  rw [hnum] at hd'
                  injection hd' with h1 h2
                  subst h1
                  subst h2
                  exact Nat.le_of_not_lt hst
                · rw [hnum]; simp
                · rw [hnum]; simp
                · have heq : "v0=" ++ hmacHex secret ("v0:" ++ ts ++ ":" ++ b) = sig := by
                    simpa using h
                  exact heq.symm
              · rintro ⟨ts', sig', hts, hsig, -, -, -, -, -, hs⟩
                cases hts
                cases hsig
                simp [hs]
  constructor
  · exact hchar body
  · intro body' hv hneq
    obtain ⟨ts, sig, hts, hsig, hne1, hne2, hfr, hpos, hneg, hs⟩ := (hchar body).mp hv
    cases hts
    cases hsig
    cases hb' : Slack.verifySlackRequest hmacHex secret now (some ts) (some sig) body' with
    | false => rfl
    | true =>
      obtain ⟨ts2, sig2, hts2, hsig2, -, -, -, -, -, hs2⟩ := (hchar body').mp hb'
      cases hts2
      cases hsig2
      apply absurd (hs2.symm.trans hs)
      intro hcontra
      apply hneq
      have hd := congrArg String.data hcontra
      rw [String.data_append, String.data_append] at hd
      exact String.ext (List.append_cancel_left hd)

/-- Claim C2 witness: a request with numeric timestamp within the window and
matching signature verifies; mutating the body (with an HMAC oracle that
separates the two bases) makes it fail; and the float timestamp `"100.5"`
parses to the finite number `1005 / 10`, so a correctly-signed but stale
request carrying it is rejected by the freshness check. -/
theorem verify_characterization_witness :
    Slack.verifySlackRequest Fixtures.hmacTag "s" 100 (some "100") (some Fixtures.sigValid) "b"
      = true
    ∧ Slack.verifySlackRequest Fixtures.hmacTag "s" 100 (some "100") (some Fixtures.sigValid) "c"
      = false
    ∧ JsModel.jsNumber "100.5" = JsModel.JsNum.finite 1005 10
    ∧ Slack.verifySlackRequest Fixtures.hmacTag "s" 1000000 (some "100.5")
        (some Fixtures.sigFloat) "b" = false := by
  refine ⟨by decide, ?_, by decide, by decide⟩
  exact (verify_characterization Fixtures.hmacTag "s" 100 (some "100")
    (some Fixtures.sigValid) "b").2 "c" (by decide) (by decide)

/-- Claim C1 (code bug): the route's `POST` tests `!verifySlackRequest(req,
rawBody)` without `await`; the Promise object is always truthy, so the 401
branch is unreachable.  At the failing input — a request carrying no
timestamp/signature headers with a `message_action` payload — the verifier
(had it been awaited) returns false, yet `POST` answers 200 and performs the
downstream `views.open` call instead of returning 401 with no calls. -/
theorem post_ignores_signature_failure :
    Slack.verifySlackRequest Fixtures.hmacTag "s" 1000 none none "payload=x" = false
    ∧ (Route.POST Fixtures.postEnvForged "payload=x").1 = (200, "")
    ∧ (Route.POST Fixtures.postEnvForged "payload=x").2 ≠ [] := by
  exact ⟨rfl, rfl, by decide⟩

section LengthLemmas

open JsModel

theorem jsLength_append (a b : String) : jsLength (a ++ b) = jsLength a + jsLength b := by
  simp [jsLength, String.data_append]

theorem escapeChar_flatMap_replicate {c : Char} (hc : Json.escapeChar c = [c]) :
    ∀ n, (List.replicate n c).flatMap Json.escapeChar = List.replicate n c := by
  intro n
  induction n with
  | zero => simp
  | succ k ih => simp [List.replicate_succ, hc, ih]

theorem jsLength_mk_replicate {c : Char} (hw : utf16Width c = 1) (n : Nat) :
    jsLength ⟨List.replicate n c⟩ = n := by
  simp [jsLength, List.map_replicate, hw, List.sum_replicate]

theorem jsLength_quote_replicate {c : Char} (hc : Json.escapeChar c = [c])
    (hw : utf16Width c = 1) (n : Nat) :
    jsLength (Json.quote (⟨List.replicate n c⟩ : String)) = n + 2 := by
  unfold Json.quote
  show jsLength ⟨'"' :: (List.replicate n c).flatMap Json.escapeChar ++ ['"']⟩ = n + 2
  rw [escapeChar_flatMap_replicate hc]
  have h1 : utf16Width '"' = 1 := by decide
  simp [jsLength, List.map_replicate, hw, List.sum_replicate, h1]
  omega

end LengthLemmas

section DegradeLemmas

open JsModel

theorem serializeMeta_oversize_decomp :
    P1.serializeMeta Fixtures.metaOversizeText
      = "\x7b" ++ ((Json.quote "text" ++ ":" ++ Json.quote Fixtures.longText)
        ++ ("," ++ (JsModel.joinSep "," [Json.field "user" "u", Json.field "channel" "c",
            Json.field "channelId" "C1",
            Json.quote "files" ++ ":[" ++ JsModel.joinSep "," [] ++ "]"]))) ++ "\x7d" := by
  simp only [P1.serializeMeta, Json.obj, Fixtures.metaOversizeText, Json.field,
    List.map, List.filterMap, Option.map, JsModel.joinSep, String.append_assoc]

theorem serializeMeta_oversize_len :
    JsModel.jsLength (P1.serializeMeta Fixtures.metaOversizeText) = 3065 := by
  have hq : jsLength (Json.quote Fixtures.longText) = 3003 := by
    unfold Fixtures.longText
    have := jsLength_quote_replicate (c := 'a') (by decide) (by decide) 3001
    simpa using this
  rw [serializeMeta_oversize_decomp]
  simp only [jsLength_append, hq]
  norm_num [show jsLength "\x7b" = 1 from by decide,
    show jsLength "\x7d" = 1 from by decide,
    show jsLength "," = 1 from by decide,
    show jsLength ":" = 1 from by decide,
    show jsLength (Json.quote "text") = 6 from by decide,
    show jsLength (JsModel.joinSep "," [Json.field "user" "u", Json.field "channel" "c",
      Json.field "channelId" "C1",
      Json.quote "files" ++ ":[" ++ JsModel.joinSep "," [] ++ "]"]) = 52 from by decide]

end DegradeLemmas

/-- Claim C3 counterexample: metadata whose serialization exceeds 3000 chars
because of `text` alone (no files).  The degrade policy only shrinks the file
list and never truncates `text`, so its output serialization still exceeds
3000 (and 2900) characters — refuting "produces a serialized metadata of at
most 3000 characters" as stated. -/
theorem degrade_oversized_text_counterexample :
    JsModel.jsLength (P1.serializeMeta Fixtures.metaOversizeText) > 3000
    ∧ P1.degradeMeta Fixtures.metaOversizeText = Fixtures.metaOversizeText
    ∧ JsModel.jsLength (P1.serializeMeta (P1.degradeMeta Fixtures.metaOversizeText)) > 3000 := by
  have hlen := serializeMeta_oversize_len
  have hdeg : P1.degradeMeta Fixtures.metaOversizeText = Fixtures.metaOversizeText := by
    unfold P1.degradeMeta
    dsimp only []
    split
    · split
      · rfl
      · rfl
    · rfl
  refine ⟨by omega, hdeg, ?_⟩
  rw [hdeg]
  omega

/-- Claim C3 (amended): the degrade policy preserves `text`, `user`, `channel`
and the channel/team identifiers; only the file list shrinks (unchanged, or
degraded to id+name entries, or dropped entirely); and the result serializes
to at most 2900 (hence at most 3000) characters provided the metadata with
the file list emptied fits in 2900 characters — the policy cannot fit
metadata whose overflow is caused by the non-file fields. -/
theorem degrade_policy_characterization (m : P1.Meta)
    (h : JsModel.jsLength (P1.serializeMeta { m with files := [] }) ≤ 2900) :
    (P1.degradeMeta m).text = m.text ∧ (P1.degradeMeta m).user = m.user
    ∧ (P1.degradeMeta m).channel = m.channel ∧ (P1.degradeMeta m).channelId = m.channelId
    ∧ (P1.degradeMeta m).messageTs = m.messageTs ∧ (P1.degradeMeta m).teamId = m.teamId
    ∧ (P1.degradeMeta m).teamDomain = m.teamDomain
    ∧ ((P1.degradeMeta m).files = m.files
        ∨ (P1.degradeMeta m).files = m.files.map (fun f => P1.P1File.mk f.id f.name none none)
        ∨ (P1.degradeMeta m).files = [])
    ∧ JsModel.jsLength (P1.serializeMeta (P1.degradeMeta m)) ≤ 2900
    ∧ JsModel.jsLength (P1.serializeMeta (P1.degradeMeta m)) ≤ 3000 := by
  unfold P1.degradeMeta
  dsimp only []
  split
  case isTrue h0 =>
    split
    case isTrue h1 =>
      refine ⟨rfl, rfl, rfl, rfl, rfl, rfl, rfl, Or.inr (Or.inr rfl), ?_, ?_⟩
      · exact h
      · exact le_trans h (by omega)
    case isFalse h1 =>
      have h1' := Nat.le_of_not_lt h1
      exact ⟨rfl, rfl, rfl, rfl, rfl, rfl, rfl, Or.inr (Or.inl rfl), h1',
        le_trans h1' (by omega)⟩
  case isFalse h0 =>
    have h0' := Nat.le_of_not_lt h0
    exact ⟨rfl, rfl, rfl, rfl, rfl, rfl, rfl, Or.inl rfl, h0', le_trans h0' (by omega)⟩

section DegradeWitnessLemmas

open JsModel

theorem serializeMeta_bigfiles_gt :
    JsModel.jsLength (P1.serializeMeta Fixtures.metaBigFiles) > 2900 := by
  have hq : jsLength (Json.quote Fixtures.longUrl) = 3002 := by
    unfold Fixtures.longUrl
    have := jsLength_quote_replicate (c := 'u') (by decide) (by decide) 3000
    simpa using this
  simp only [P1.serializeMeta, P1.serializeFile, Json.obj, Fixtures.metaBigFiles, Json.field,
    List.map, List.filterMap, Option.map, JsModel.joinSep, jsLength_append, hq]
  omega

theorem degradeMeta_bigfiles_eq :
    P1.degradeMeta Fixtures.metaBigFiles
      = { Fixtures.metaBigFiles with
          files := [P1.P1File.mk (some "F1") (some "shot.png") none none] } := by
  unfold P1.degradeMeta
  dsimp only []
  rw [if_pos serializeMeta_bigfiles_gt, if_neg (by decide)]
  decide

end DegradeWitnessLemmas

/-- Claim C3 witness: metadata pushed over the 2900-char guard only by a
file's download URL: the policy degrades the file entry to id+name, the
result fits, and the amended theorem's hypothesis holds. -/
theorem degrade_policy_characterization_witness :
    JsModel.jsLength (P1.serializeMeta { Fixtures.metaBigFiles with files := [] }) ≤ 2900
    ∧ JsModel.jsLength (P1.serializeMeta Fixtures.metaBigFiles) > 2900
    ∧ (P1.degradeMeta Fixtures.metaBigFiles).files
        = Fixtures.metaBigFiles.files.map (fun f => P1.P1File.mk f.id f.name none none)
    ∧ JsModel.jsLength (P1.serializeMeta (P1.degradeMeta Fixtures.metaBigFiles)) ≤ 2900 := by
  have h := degrade_policy_characterization Fixtures.metaBigFiles (by decide)
  refine ⟨by decide, serializeMeta_bigfiles_gt, ?_, h.2.2.2.2.2.2.2.2.1⟩
  rw [degradeMeta_bigfiles_eq]
  decide

section P1Lemmas

theorem handleSubmitFilesP1_cons (env : P1.P1Env) (issue : String) (f : P1.P1File)
    (rest : List P1.P1File) :
    P1.handleSubmitFilesP1 env issue (f :: rest)
      = (((P1.processOneP1 env issue f).1.1 ++ (P1.handleSubmitFilesP1 env issue rest).1.1,
          (P1.processOneP1 env issue f).1.2 ++ (P1.handleSubmitFilesP1 env issue rest).1.2),
         (P1.processOneP1 env issue f).2 ++ (P1.handleSubmitFilesP1 env issue rest).2) := rfl

end P1Lemmas

/-- Claim C7: in `src/unnamed/part_001`'s submission pipeline, a FileRef that
has an id and lacks a usable download URL or MIME type triggers the
`files.info` lookup before any download step (the step trace starts with the
lookup); a lookup failure yields a single `UploadError` for that file (named
`file.name || file.id || "unknown"`), no download happens for it, and the
rest of the batch is still processed. -/
theorem resolve_lookup_and_isolation (env : P1.P1Env) (issue : String) (file : P1.P1File)
    (hid : JsModel.jsTruthyStr file.id = true)
    (hmiss : JsModel.jsTruthyStr file.url_private_download = false
      ∨ JsModel.jsTruthyStr file.mimetype = false) :
    (∃ tr, (P1.processOneP1 env issue file).2 = P1.P1Step.filesInfo :: tr)
    ∧ (∀ m, env.filesInfo (file.id.getD "") = .error m →
        P1.processOneP1 env issue file
          = (([], [⟨JsModel.jsOrStr file.name file.id "unknown", m⟩]), [P1.P1Step.filesInfo])
        ∧ ∀ rest, P1.handleSubmitFilesP1 env issue (file :: rest)
            = (((P1.handleSubmitFilesP1 env issue rest).1.1,
                ⟨JsModel.jsOrStr file.name file.id "unknown", m⟩
                  :: (P1.handleSubmitFilesP1 env issue rest).1.2),
               P1.P1Step.filesInfo :: (P1.handleSubmitFilesP1 env issue rest).2)) := by
  have hcond : (JsModel.jsTruthyStr file.id
      && (!JsModel.jsTruthyStr file.url_private_download
          || !JsModel.jsTruthyStr file.mimetype)) = true := by
    rcases hmiss with h | h <;> simp [hid, h]
  constructor
  · unfold P1.processOneP1
    rw [hcond]
    dsimp only []
    cases henv : env.filesInfo (file.id.getD "") with
    | error m => exact ⟨[], rfl⟩
    | ok resp => exact ⟨_, rfl⟩
  · intro m hm
    have hp : P1.processOneP1 env issue file
        = (([], [⟨JsModel.jsOrStr file.name file.id "unknown", m⟩]), [P1.P1Step.filesInfo]) := by
      unfold P1.processOneP1
      rw [hcond]
      dsimp only []
      rw [hm]
      rfl
    refine ⟨hp, ?_⟩
    intro rest
    rw [handleSubmitFilesP1_cons, hp]
    simp

/-- Claim C7 witness: an id-only file entry (as left by metadata degradation)
under an environment whose `files.info` fails: the lookup runs first, the
file gets its own error, and a complete sibling file is still processed. -/
theorem resolve_lookup_and_isolation_witness :
    P1.processOneP1 Fixtures.p1EnvInfoFails "7" Fixtures.p1FileIdOnly
      = (([], [⟨"doc.pdf", "files.info failed"⟩]), [P1.P1Step.filesInfo])
    ∧ P1.handleSubmitFilesP1 Fixtures.p1EnvInfoFails "7"
        [Fixtures.p1FileIdOnly, Fixtures.p1FileComplete]
      = ((((P1.handleSubmitFilesP1 Fixtures.p1EnvInfoFails "7" [Fixtures.p1FileComplete]).1.1),
          ⟨"doc.pdf", "files.info failed"⟩
            :: (P1.handleSubmitFilesP1 Fixtures.p1EnvInfoFails "7" [Fixtures.p1FileComplete]).1.2),
         P1.P1Step.filesInfo
           :: (P1.handleSubmitFilesP1 Fixtures.p1EnvInfoFails "7" [Fixtures.p1FileComplete]).2) := by
  have h := resolve_lookup_and_isolation Fixtures.p1EnvInfoFails "7" Fixtures.p1FileIdOnly
    (by decide) (Or.inl (by decide))
  have h2 := h.2 "files.info failed" rfl
  constructor
  · rw [h2.1]
    decide
  · have h3 := h2.2 [Fixtures.p1FileComplete]
    rw [h3]
    decide

/-- Claim C8 counterexample: for an empty message text the composed comment
does NOT contain the "no content" placeholder `（本文なし）`: the quoted text
is `"> "`, which is truthy, so the `quoted || "> （本文なし）"` fallback is dead
code; after the final trim the comment simply ends in a bare `>`. -/
theorem empty_text_placeholder_counterexample :
    ¬ JsModel.strContains (Route.formatIssueComment ⟨"", "u", "c", "", []⟩) "（本文なし）"
    ∧ Route.quotedText "" = "> "
    ∧ Route.formatIssueComment ⟨"", "u", "c", "", []⟩
        = "## Slackから共有 🧵\n\n**投稿者**: @u  \n**チャンネル**: #c\n\n>" := by
  exact ⟨by decide, by decide, by decide⟩

set_option maxRecDepth 8000 in
/-- Claim C8 (amended): the composer quotes each line of the text with a `> `
prefix (the scenario text `"hello\nworld"` yields `> hello` and `> world`,
and with no files and no failures the comment contains neither section
header); an empty text yields the bare quoted line `"> "` — never the
`（本文なし）` placeholder, which is unreachable; image-MIME assets render as
inline images `![name](url)` and non-image assets as icon-prefixed links
(📄 / 📊 / 📎); the attachments section is omitted when no file succeeded
and the failures section when no file failed. -/
theorem comment_composer_rules :
    (JsModel.strContains (Route.formatIssueComment
        ⟨"hello\nworld", "alice", "general", GH.formatAttachments [], []⟩) "> hello"
      ∧ JsModel.strContains (Route.formatIssueComment
        ⟨"hello\nworld", "alice", "general", GH.formatAttachments [], []⟩) "> world"
      ∧ ¬ JsModel.strContains (Route.formatIssueComment
        ⟨"hello\nworld", "alice", "general", GH.formatAttachments [], []⟩) "### 添付ファイル"
      ∧ ¬ JsModel.strContains (Route.formatIssueComment
        ⟨"hello\nworld", "alice", "general", GH.formatAttachments [], []⟩)
          "### ⚠️ アップロードできなかったファイル")
    ∧ (∀ f : GH.AttachmentFile, JsModel.jsStartsWith f.mimetype "image/" = true →
        GH.attachmentLine f = "![" ++ f.filename ++ "](" ++ f.url ++ ")")
    ∧ (∀ f : GH.AttachmentFile, JsModel.jsStartsWith f.mimetype "image/" = false →
        ∃ icon, (icon = "📄" ∨ icon = "📊" ∨ icon = "📎")
          ∧ GH.attachmentLine f = icon ++ " [" ++ f.filename ++ "](" ++ f.url ++ ")")
    ∧ GH.formatAttachments [] = ""
    ∧ Route.errorSection [] = ""
    ∧ Route.quotedText "" = "> " := by
  refine ⟨⟨by decide, by decide, by decide, by decide⟩, ?_, ?_, by decide, by decide, by decide⟩

  · intro f h
    unfold GH.attachmentLine
    rw [h]
    simp
  · intro f h
    unfold GH.attachmentLine
    rw [h]
    rw [if_neg (by simp)]
    by_cases h2 : f.mimetype = "application/pdf"
    · rw [if_pos h2]
      refine ⟨"📄", Or.inl rfl, ?_⟩
      simp [show ("📄 [" : String) = "📄" ++ " [" from by decide, String.append_assoc]
    · rw [if_neg h2]
      by_cases h3 :
        (decide (f.mimetype = "application/vnd.openxmlformats-officedocument.spreadsheetml.sheet")
          || decide (f.mimetype = "application/vnd.ms-excel")
          || decide (f.mimetype = "text/csv")
          || GH.matchesSpreadsheetExt f.filename) = true
      · rw [if_pos h3]
        refine ⟨"📊", Or.inr (Or.inl rfl), ?_⟩
        simp [show ("📊 [" : String) = "📊" ++ " [" from by decide, String.append_assoc]
      · rw [if_neg h3]
        refine ⟨"📎", Or.inr (Or.inr rfl), ?_⟩
        simp [show ("📎 [" : String) = "📎" ++ " [" from by decide, String.append_assoc]

/-- Claim C8 witness: an image asset renders inline, a PDF renders as an
icon-prefixed link. -/
theorem comment_composer_rules_witness :
    GH.attachmentLine ⟨"img.png", "https://x/img.png", "image/png"⟩
      = "![" ++ "img.png" ++ "](" ++ "https://x/img.png" ++ ")"
    ∧ ∃ icon, (icon = "📄" ∨ icon = "📊" ∨ icon = "📎")
        ∧ GH.attachmentLine ⟨"doc.pdf", "https://x/doc.pdf", "application/pdf"⟩
          = icon ++ " [" ++ "doc.pdf" ++ "](" ++ "https://x/doc.pdf" ++ ")" := by
  exact ⟨comment_composer_rules.2.1 _ (by decide), comment_composer_rules.2.2.1 _ (by decide)⟩

section LinkLemmas

open JsModel

theorem strIsEmpty_false_of_ne (s : String) (h : s ≠ "") : JsModel.strIsEmpty s = false := by
  cases hl : JsModel.strIsEmpty s with
  | false => rfl
  | true =>
    exact absurd (String.ext (List.isEmpty_iff.mp hl)) h

theorem quotedOr_nonws (t : String) :
    ∃ c ∈ (if JsModel.strIsEmpty (Route.quotedText t) = true
        then "> （本文なし）" else Route.quotedText t).data, JsModel.isJsWs c = false := by
  by_cases hq : JsModel.strIsEmpty (Route.quotedText t) = true
  · rw [if_pos hq]
    decide
  · rw [if_neg hq]
    cases hsp : JsModel.splitOnChar '\n' t with
    | nil =>
      exfalso
      apply hq
      unfold Route.quotedText
      rw [hsp]
      rfl
    | cons x xs =>
      have hx : Route.quotedText t
          = ("> " ++ x) ++ (Route.quotedText t).drop 2 ∨ True := Or.inr trivial
      obtain ⟨r, hr⟩ := joinSep_cons_exists "\n" ("> " ++ x) (xs.map (fun l => "> " ++ l))
      have hqt : Route.quotedText t = ("> " ++ x) ++ r := by
        unfold Route.quotedText
        rw [hsp]
        simpa [List.map] using hr
      refine ⟨'>', ?_, by decide⟩
      rw [hqt, String.data_append, String.data_append]
      exact List.mem_append_left _ (List.mem_append_left _ (by decide))

end LinkLemmas

/-- Claim C9: `src/unnamed/part_001`'s comment builds a link back to the
original message exactly when channel id and message timestamp are truthy and
at least one of team domain / team id is truthy; when the team domain is
truthy the archives-style (domain-based) link is chosen — in preference to
the id-based client link — with the first `.` of the timestamp removed; when
no link is built the link section is empty, and when one is built the
composed comment contains the `[Slackで見る](<link>)` markdown. -/
theorem slack_link_characterization :
    (∀ cid ts tid tdom : Option String,
      (P1.buildSlackLink cid ts tid tdom ≠ "") ↔
        (JsModel.jsTruthyStr cid = true ∧ JsModel.jsTruthyStr ts = true
          ∧ (JsModel.jsTruthyStr tdom = true ∨ JsModel.jsTruthyStr tid = true)))
    ∧ (∀ cid ts tid tdom : Option String,
        JsModel.jsTruthyStr cid = true → JsModel.jsTruthyStr ts = true →
        JsModel.jsTruthyStr tdom = true →
        P1.buildSlackLink cid ts tid tdom
          = "https://" ++ tdom.getD "" ++ ".slack.com/archives/" ++ cid.getD ""
            ++ "/p" ++ JsModel.jsReplaceFirst (ts.getD "") '.' "")
    ∧ (P1.slackLinkSection "" = "")
    ∧ (∀ a : P1.CommentArgs,
        P1.buildSlackLink a.channelId a.messageTs a.teamId a.teamDomain ≠ "" →
        JsModel.strContains (P1.formatIssueComment a)
          ("[Slackで見る]("
            ++ P1.buildSlackLink a.channelId a.messageTs a.teamId a.teamDomain ++ ")")) := by
  refine ⟨?_, ?_, by decide, ?_⟩
  · intro cid ts tid tdom
    unfold P1.buildSlackLink
    by_cases h1 : JsModel.jsTruthyStr cid = true <;>
    by_cases h2 : JsModel.jsTruthyStr ts = true <;>
    by_cases h3 : JsModel.jsTruthyStr tdom = true <;>
    by_cases h4 : JsModel.jsTruthyStr tid = true <;>
    simp [h1, h2, h3, h4] <;>
    · repeat' apply str_append_ne_empty
      decide
  · intro cid ts tid tdom h1 h2 h3
    unfold P1.buildSlackLink
    simp [h1, h2, h3]
  · intro a hlink
    have hsec : P1.slackLinkSection
        (P1.buildSlackLink a.channelId a.messageTs a.teamId a.teamDomain)
        = "**元のメッセージ**: [Slackで見る]("
          ++ P1.buildSlackLink a.channelId a.messageTs a.teamId a.teamDomain ++ ")  " := by
      unfold P1.slackLinkSection
      rw [strIsEmpty_false_of_ne _ hlink]
      rfl
    unfold P1.formatIssueComment
    dsimp only []
    rw [hsec]
    refine strContains_jsTrim_decomp
      (p := "\n## Slackから共有 🧵\n\n**投稿者**: @" ++ (a.user ++ ("  \n**チャンネル**: #"
        ++ (a.channel ++ ("  \n" ++ "**元のメッセージ**: ")))))
      (s := "  " ++ ("\n\n" ++ ((if JsModel.strIsEmpty (Route.quotedText a.text) = true
            then "> （本文なし）" else Route.quotedText a.text)
          ++ ("\n" ++ (a.attachments ++ ("\n" ++ (Route.errorSection a.errors ++ "\n")))))))
      ?_ ?_ ?_
    · rw [show ("**元のメッセージ**: [Slackで見る](" : String)
          = "**元のメッセージ**: " ++ "[Slackで見る](" from by decide,
        show (")  " : String) = ")" ++ "  " from by decide]
      simp only [String.append_assoc]
    · exact exists_nonws_append_left _ (by decide)
    · exact exists_nonws_append_right "  "
        (exists_nonws_append_right "\n\n"
          (exists_nonws_append_left _ (quotedOr_nonws a.text)))

/-- Claim C9 witness: with channel, timestamp and team domain all present the
archives-style link is built (dot removed from the timestamp); dropping the
domain falls back to the client-style link; dropping both yields no link. -/
theorem slack_link_characterization_witness :
    P1.buildSlackLink (some "C1") (some "1234.5678") (some "T1") (some "acme")
      = "https://" ++ "acme" ++ ".slack.com/archives/" ++ "C1" ++ "/p"
        ++ JsModel.jsReplaceFirst "1234.5678" '.' ""
    ∧ JsModel.jsReplaceFirst "1234.5678" '.' "" = "12345678"
    ∧ (P1.buildSlackLink (some "C1") (some "1234.5678") none none ≠ "") = False
    ∧ JsModel.strContains
        (P1.formatIssueComment
          ⟨"", "", "", some "C1", some "1234.5678", none, some "acme", "", []⟩)
        ("[Slackで見る](" ++ P1.buildSlackLink (some "C1") (some "1234.5678") none (some "acme") ++ ")") := by
  refine ⟨slack_link_characterization.2.1 (some "C1") (some "1234.5678") (some "T1") (some "acme")
      (by decide) (by decide) (by decide), by decide, ?_, ?_⟩
  · simp only [eq_iff_iff, iff_false]
    intro hne
    have h := (slack_link_characterization.1 (some "C1") (some "1234.5678") none none).mp hne
    simp [JsModel.jsTruthyStr] at h
  · have h := slack_link_characterization.2.2.2
      ⟨"", "", "", some "C1", some "1234.5678", none, some "acme", "", []⟩
      (by decide)
    simpa using h

section BatchLemmas

theorem handleSubmitFiles_cons (env : GH.Env) (issue : String) (f : GH.SlackFile)
    (rest : List GH.SlackFile) :
    Route.handleSubmitFiles env issue (f :: rest)
      = (match Route.processFile env issue f with
         | .ok a => (a :: (Route.handleSubmitFiles env issue rest).1,
             (Route.handleSubmitFiles env issue rest).2)
         | .error e => ((Route.handleSubmitFiles env issue rest).1,
             e :: (Route.handleSubmitFiles env issue rest).2)) := rfl

end BatchLemmas

set_option maxRecDepth 8000 in
/-- Claim C4 counterexample: a batch of N = 1 files whose single file throws
during its transfer yields 0 uploaded assets and 1 error, and the composed
comment then contains NO attachments section — refuting "the composed
comment contains both an attachments section and a failures section" for
every such batch. -/
theorem single_file_batch_counterexample :
    Route.handleSubmitFiles Fixtures.envOneFetchFails "12" [Fixtures.badFile]
      = ([], [⟨"bad.png", "Slack download failed: socket hang up"⟩])
    ∧ ¬ JsModel.strContains
        (Route.formatIssueComment ⟨"t", "u", "c", GH.formatAttachments [],
          [⟨"bad.png", "Slack download failed: socket hang up"⟩]⟩)
        "### 添付ファイル"
    ∧ JsModel.strContains
        (Route.formatIssueComment ⟨"t", "u", "c", GH.formatAttachments [],
          [⟨"bad.png", "Slack download failed: socket hang up"⟩]⟩)
        "### ⚠️ アップロードできなかったファイル" := by
  exact ⟨by decide, by decide, by decide⟩

/-- Claim C4 (amended): in a batch with at least two files where exactly one
file's transfer throws (modelled: its download step throws an exception with
message `m` after passing the gates) and every other file's transfer
succeeds, no exception escapes: the engine converts the throw into
`UploadError {filename, reason := m}`, the other N−1 files still produce
their `UploadedAsset`s, and the composed comment contains both the
attachments section and the failures section.  (For N = 1 the attachments
section is omitted, see the counterexample.) -/
theorem batch_isolates_throwing_file (env : GH.Env) (issue text user channel : String)
    (pre post : List GH.SlackFile) (bad : GH.SlackFile) (m : String)
    (hgood : ∀ f ∈ pre ++ post, ∃ a, Route.processFile env issue f = .ok a)
    (hne : pre ++ post ≠ [])
    (hurl : JsModel.jsTruthyStr bad.url_private_download = true)
    (htype : GH.isSupportedFileType (bad.mimetype.getD "application/octet-stream") = true)
    (hsize : (JsModel.jsTruthyNat bad.size && decide (bad.size.getD 0 > GH.MAX_FILE_SIZE)) = false)
    (hthrow : GH.downloadSlackFile env bad = .error m) :
    (Route.handleSubmitFiles env issue (pre ++ bad :: post)).1.length
        = pre.length + post.length
    ∧ (Route.handleSubmitFiles env issue (pre ++ bad :: post)).2
        = [⟨bad.name.getD "file", m⟩]
    ∧ JsModel.strContains
        (Route.formatIssueComment ⟨text, user, channel,
          GH.formatAttachments (Route.handleSubmitFiles env issue (pre ++ bad :: post)).1,
          (Route.handleSubmitFiles env issue (pre ++ bad :: post)).2⟩)
        "### 添付ファイル"
    ∧ JsModel.strContains
        (Route.formatIssueComment ⟨text, user, channel,
          GH.formatAttachments (Route.handleSubmitFiles env issue (pre ++ bad :: post)).1,
          (Route.handleSubmitFiles env issue (pre ++ bad :: post)).2⟩)
        "### ⚠️ アップロードできなかったファイル" := by
  have hbad := processFile_err_of_download_error env issue bad m hurl htype hsize hthrow
  have hpre := handleSubmitFiles_all_ok env issue pre
    (fun f hf => hgood f (List.mem_append_left _ hf))
  have hpost := handleSubmitFiles_all_ok env issue post
    (fun f hf => hgood f (List.mem_append_right _ hf))
  have hconsR : Route.handleSubmitFiles env issue (bad :: post)
      = ((Route.handleSubmitFiles env issue post).1,
         (⟨bad.name.getD "file", m⟩ : GH.UploadError)
           :: (Route.handleSubmitFiles env issue post).2) := by
    rw [handleSubmitFiles_cons, hbad]
  have hfull : Route.handleSubmitFiles env issue (pre ++ bad :: post)
      = ((Route.handleSubmitFiles env issue pre).1 ++ (Route.handleSubmitFiles env issue post).1,
         ⟨bad.name.getD "file", m⟩ :: (Route.handleSubmitFiles env issue post).2) := by
    rw [handleSubmitFiles_append, hconsR, hpre.1]
    simp
  have hlenpos : 0 < pre.length + post.length := by
    rcases pre with - | ⟨p, pr⟩
    · rcases post with - | ⟨q, qr⟩
      · exact absurd rfl hne
      · simp
    · simp
  refine ⟨?_, ?_, ?_, ?_⟩
  · rw [hfull]
    simp [hpre.2, hpost.2]
  · rw [hfull, hpost.1]
  · rw [hfull, hpost.1]
    rcases hus : (Route.handleSubmitFiles env issue pre).1
        ++ (Route.handleSubmitFiles env issue post).1 with - | ⟨u, us⟩
    · exfalso
      have : pre.length + post.length = 0 := by
        have hl := congrArg List.length hus
        simpa [hpre.2, hpost.2] using hl
      omega
    · have hatt : GH.formatAttachments (u :: us)
          = "\n### 添付ファイル\n"
            ++ JsModel.joinSep "\n" ((u :: us).map GH.attachmentLine) ++ "\n" := by
        unfold GH.formatAttachments
        rw [if_neg (by simp)]
      have herr : Route.errorSection [⟨bad.name.getD "file", m⟩]
          = "\n### ⚠️ アップロードできなかったファイル\n"
            ++ ("- `" ++ bad.name.getD "file" ++ "`: " ++ m) ++ "\n" := by
        unfold Route.errorSection
        rw [if_pos (by simp)]
        rfl
      unfold Route.formatIssueComment
      dsimp only []
      rw [hatt]
      refine strContains_jsTrim_decomp
        (p := "\n## Slackから共有 🧵\n\n**投稿者**: @" ++ user ++ "  \n**チャンネル**: #"
          ++ channel ++ "\n\n" ++ (if JsModel.strIsEmpty (Route.quotedText text) = true
              then "> （本文なし）" else Route.quotedText text) ++ "\n" ++ "\n")
        (s := "\n" ++ JsModel.joinSep "\n" ((u :: us).map GH.attachmentLine)
          ++ "\n" ++ "\n" ++ Route.errorSection [⟨bad.name.getD "file", m⟩] ++ "\n")
        ?_ ?_ ?_
      · rw [show ("\n### 添付ファイル\n" : String)
            = "\n" ++ ("### 添付ファイル" ++ "\n") from by decide]
        simp only [String.append_assoc]
      · repeat' apply exists_nonws_append_left
        decide
      · apply exists_nonws_append_left
        apply exists_nonws_append_right
        rw [herr]
        repeat' apply exists_nonws_append_left
        decide
  · rw [hfull, hpost.1]
    have herr : Route.errorSection [⟨bad.name.getD "file", m⟩]
        = "\n### ⚠️ アップロードできなかったファイル\n"
          ++ ("- `" ++ bad.name.getD "file" ++ "`: " ++ m) ++ "\n" := by
      unfold Route.errorSection
      rw [if_pos (by simp)]
      rfl
    unfold Route.formatIssueComment
    dsimp only []
    rw [herr]
    refine strContains_jsTrim_decomp
      (p := "\n## Slackから共有 🧵\n\n**投稿者**: @" ++ user ++ "  \n**チャンネル**: #"
        ++ channel ++ "\n\n" ++ (if JsModel.strIsEmpty (Route.quotedText text) = true
            then "> （本文なし）" else Route.quotedText text)
        ++ "\n" ++ GH.formatAttachments
            ((Route.handleSubmitFiles env issue pre).1
              ++ (Route.handleSubmitFiles env issue post).1)
        ++ "\n" ++ "\n")
      (s := "\n" ++ ("- `" ++ bad.name.getD "file" ++ "`: " ++ m) ++ "\n" ++ "\n")
      ?_ ?_ ?_
    · rw [show ("\n### ⚠️ アップロードできなかったファイル\n" : String)
          = "\n" ++ ("### ⚠️ アップロードできなかったファイル" ++ "\n") from by decide]
      simp only [String.append_assoc]
    · repeat' apply exists_nonws_append_left
      decide
    · apply exists_nonws_append_left
      apply exists_nonws_append_left
      apply exists_nonws_append_right
      repeat' apply exists_nonws_append_left
      decide

/-- Claim C4 witness: a two-file batch where only the second file's download
throws: the first file still yields its asset, the throwing file yields one
`UploadError` with the thrown message, and the composed comment carries both
the attachments section and the failures section. -/
theorem batch_isolates_throwing_file_witness :
    (Route.handleSubmitFiles Fixtures.envOneFetchFails "12"
        [Fixtures.goodFile, Fixtures.badFile]).1.length = 1
    ∧ (Route.handleSubmitFiles Fixtures.envOneFetchFails "12"
        [Fixtures.goodFile, Fixtures.badFile]).2
        = [⟨"bad.png", "Slack download failed: socket hang up"⟩]
    ∧ JsModel.strContains
        (Route.formatIssueComment ⟨"text", "alice", "general",
          GH.formatAttachments (Route.handleSubmitFiles Fixtures.envOneFetchFails "12"
            [Fixtures.goodFile, Fixtures.badFile]).1,
          (Route.handleSubmitFiles Fixtures.envOneFetchFails "12"
            [Fixtures.goodFile, Fixtures.badFile]).2⟩)
        "### 添付ファイル"
    ∧ JsModel.strContains
        (Route.formatIssueComment ⟨"text", "alice", "general",
          GH.formatAttachments (Route.handleSubmitFiles Fixtures.envOneFetchFails "12"
            [Fixtures.goodFile, Fixtures.badFile]).1,
          (Route.handleSubmitFiles Fixtures.envOneFetchFails "12"
            [Fixtures.goodFile, Fixtures.badFile]).2⟩)
        "### ⚠️ アップロードできなかったファイル" := by
  have h := batch_isolates_throwing_file Fixtures.envOneFetchFails "12" "text" "alice" "general"
    [Fixtures.goodFile] [] Fixtures.badFile "Slack download failed: socket hang up"
    (by
      intro f hf
      simp only [List.append_nil, List.mem_singleton] at hf
      subst hf
      exact ⟨_, rfl⟩)
    (by decide) (by decide) (by decide) (by decide) rfl
  exact h
